import Mathlib

/-!
Shallow embedding of the JAX scan-map kernel of
`src/toast/ops/kernels/jax_kernels/scan_map.py` (repository `bvillasen/toast`).

Modelling conventions:
* `float64` values are embedded as exact rationals (`ℚ`); integer arrays as `List Int`.
* JAX/numpy gather with array indices resolves negative indices by wrapping
  (adding the axis length) and clamps any remaining out-of-bounds index into
  range; `jaxIndex`/`jaxGetD` embed that resolution.  Gathering from an empty
  axis yields the fill value.
* `jnp.divmod` uses Python floor-division semantics: `Int.fdiv` / `Int.fmod`.
* The interval machinery (`toast.jax.intervals.JaxIntervals`,
  `INTERVALS_JAX.compute_max_intervals_length`) is not part of the provided
  sources; those pieces are modelled from the specification
  (see the doc comments marked "Modelled from the spec").
* Fallible steps (numpy reshape errors, `jax.vmap` axis-size mismatches,
  broadcasting failures) are embedded in `Except String`.
-/

namespace ToastScanMap

/-- Resolution of a (possibly negative or out-of-bounds) numpy-style index
into an axis of length `n`: negative indices wrap, the result is clamped
into `[0, n-1]` (JAX gather clamps out-of-bounds indices under `jit`). -/
def jaxIndex (n : Nat) (i : Int) : Nat :=
  let j : Int := if i < 0 then i + n else i
  (max 0 (min j ((n : Int) - 1))).toNat

/-- Gather one element from a list with JAX index resolution; an empty list
yields the fill value `d`. -/
def jaxGetD (xs : List α) (i : Int) (d : α) : α :=
  if xs.isEmpty then d else xs.getD (jaxIndex xs.length i) d

/-- Embedding of `global_to_local` (scan_map.py lines 14-29):
`quotient, remainder = jnp.divmod(global_pixels, npix_submap)`;
`local_pixels = jnp.where(global_pixels < 0, -1, remainder)`;
`local_submaps = jnp.where(global_pixels < 0, -1, global2local[quotient])`. -/
def global_to_local (global_pixels : List Int) (npix_submap : Int)
    (global2local : List Int) : List Int × List Int :=
  let quotient := global_pixels.map (fun p => Int.fdiv p npix_submap)
  let remainder := global_pixels.map (fun p => Int.fmod p npix_submap)
  let local_pixels :=
    List.zipWith (fun p r => if p < 0 then -1 else r) global_pixels remainder
  let local_submaps :=
    List.zipWith (fun p q => if p < 0 then -1 else jaxGetD global2local q 0)
      global_pixels quotient
  (local_submaps, local_pixels)

/-- Embedding of the gather/mask step of `scan_map_inner`
(scan_map.py lines 60-67): `valid_samples = (subpix >= 0) & (submap >= 0)`;
`mapdata = jnp.where(valid_samples[:, jnp.newaxis], mapdata[submap, subpix, :], 0.0)`. -/
def scan_map_gathered (mapdata : List (List (List ℚ))) (npix_submap : Int)
    (global2local : List Int) (pixels : List Int) : List (List ℚ) :=
  let sm := global_to_local pixels npix_submap global2local
  List.zipWith
    (fun s q =>
      let row := jaxGetD (jaxGetD mapdata s []) q []
      if 0 ≤ q ∧ 0 ≤ s then row else row.map (fun _ => (0 : ℚ)))
    sm.1 sm.2

/-- Embedding of the update term of `scan_map_inner` (scan_map.py line 70):
`update = jnp.sum(mapdata * weights, axis=1) * data_scale`, for the regular
case where `weights` has one row of `nmap` components per sample. -/
def scan_map_update (mapdata : List (List (List ℚ))) (npix_submap : Int)
    (global2local : List Int) (pixels : List Int) (weights : List (List ℚ))
    (data_scale : ℚ) : List ℚ :=
  let md := scan_map_gathered mapdata npix_submap global2local pixels
  (List.zipWith (fun row w => (List.zipWith (· * ·) row w).sum) md weights).map
    (· * data_scale)

/-- Embedding of `scan_map_inner` (scan_map.py lines 32-75) for per-sample
weight vectors: computes the update term, optionally zeroes `det_data`, then
adds or subtracts the update. -/
def scan_map_inner (mapdata : List (List (List ℚ))) (npix_submap : Int)
    (global2local : List Int) (pixels : List Int) (weights : List (List ℚ))
    (det_data : List ℚ) (data_scale : ℚ)
    (should_zero should_subtract : Bool) : List ℚ :=
  let update := scan_map_update mapdata npix_submap global2local pixels weights data_scale
  let det_data := if should_zero then det_data.map (fun _ => (0 : ℚ)) else det_data
  if should_subtract then List.zipWith (· - ·) det_data update
  else List.zipWith (· + ·) det_data update

/-- Embedding of numpy-style broadcasting for `a * b` where `a` has shape
`(n, k)` and `b` has shape `(m,)` (the shapes that occur in `scan_map_inner`
when `scan_map_interval` passes 1-D per-sample weights, e.g. the
`jnp.ones_like(pixels_interval)` fallback of scan_map.py lines 162-163):
the trailing axes must agree or one of them must be 1, otherwise numpy
raises a broadcast error. -/
def broadcast_mul_2d_1d (a : List (List ℚ)) (b : List ℚ) :
    Except String (List (List ℚ)) :=
  let k := (a.headD []).length
  let m := b.length
  if k = m then Except.ok (a.map (fun row => List.zipWith (· * ·) row b))
  else if k = 1 then Except.ok (a.map (fun row => b.map (fun x => row.headD 0 * x)))
  else if m = 1 then Except.ok (a.map (fun row => row.map (fun x => x * b.headD 0)))
  else Except.error "operands could not be broadcast together"

/-- Embedding of `scan_map_inner` (scan_map.py lines 32-75) for the case in
which the per-sample weights are scalars (a 1-D array of size `nsample`), as
happens when `weight_index is None` or `weights.ndim == 2`; the product
`mapdata * weights` then follows numpy broadcasting of `(n, nmap) * (n,)`. -/
def scan_map_inner_w1 (mapdata : List (List (List ℚ))) (npix_submap : Int)
    (global2local : List Int) (pixels : List Int) (weights : List ℚ)
    (det_data : List ℚ) (data_scale : ℚ)
    (should_zero should_subtract : Bool) : Except String (List ℚ) := do
  let md := scan_map_gathered mapdata npix_submap global2local pixels
  let prod ← broadcast_mul_2d_1d md weights
  let update := (prod.map (fun row => row.sum)).map (· * data_scale)
  let det_data := if should_zero then det_data.map (fun _ => (0 : ℚ)) else det_data
  pure (if should_subtract then List.zipWith (· - ·) det_data update
    else List.zipWith (· + ·) det_data update)

/-- Update term of `scan_map_inner_w1` on the success path of its broadcast:
the per-sample sums of the product `mapdata * weights`, scaled by
`data_scale` (scan_map.py lines 69-71 in the 1-D weights case); on a failed
broadcast the value is irrelevant and defaults to `[]`. -/
def update_w1 (mapdata : List (List (List ℚ))) (npix_submap : Int)
    (global2local : List Int) (pixels : List Int) (weights : List ℚ)
    (data_scale : ℚ) : List ℚ :=
  match broadcast_mul_2d_1d (scan_map_gathered mapdata npix_submap
    global2local pixels) weights with
  | Except.ok p => (p.map (fun row => row.sum)).map (· * data_scale)
  | Except.error _ => []

/-- Fuel-driven worker for `chunkList`; the fuel is an upper bound on the
number of chunks, so the recursion is structural. -/
def chunkListAux (fuel k : Nat) (xs : List α) : List (List α) :=
  match fuel, xs with
  | _, [] => []
  | 0, _ => []
  | fuel + 1, xs => xs.take k :: chunkListAux fuel k (xs.drop k)

/-- Splits a list into consecutive chunks of size `k` (helper for the numpy
reshape of the flat map buffer); `k = 0` yields no chunks. -/
def chunkList (k : Nat) (xs : List α) : List (List α) :=
  if k = 0 then [] else chunkListAux xs.length k xs

/-- Embedding of `jnp.reshape(mapdata, newshape=(-1, npix_submap, nmap))`
(scan_map.py line 150) with numpy semantics for the inferred `-1` dimension:
more than one negative dimension is an error, a zero-sized known dimension
makes the inferred one ill-defined (error), and the known product must divide
the flat size. -/
def reshape_submaps (mapdata : List ℚ) (npix_submap nmap : Int) :
    Except String (List (List (List ℚ))) :=
  if npix_submap < 0 ∨ nmap < 0 then
    Except.error "can only specify one unknown dimension"
  else if npix_submap * nmap = 0 then Except.error "cannot reshape array"
  else if mapdata.length % (npix_submap * nmap).toNat ≠ 0 then
    Except.error "cannot reshape array"
  else
    Except.ok ((chunkList (npix_submap.toNat * nmap.toNat) mapdata).map
      (chunkList nmap.toNat))

/-- Modelled from the spec: `JaxIntervals` (module `toast.jax.intervals`, not
among the provided sources) pads every interval to `maxLen` samples by index
clamping — position `k` of the inclusive interval `[start, last]` reads index
`min (start + k) last`, so positions beyond the true end reuse the last valid
index. -/
def interval_indices (start last : Int) (maxLen : Nat) : List Int :=
  (List.range maxLen).map (fun (k : Nat) => min (start + (k : Int)) last)

/-- Modelled from the spec: `JaxIntervals.get` extracts, for every detector
row in `index` and every interval, the padded slice of the packed array
(`data[index, intervals]`, scan_map.py lines 156-171). -/
def intervals_get (data : List (List α)) (index : List Int)
    (starts lasts : List Int) (maxLen : Nat) (d : α) : List (List (List α)) :=
  index.map (fun r =>
    let row := jaxGetD data r []
    (List.zip starts lasts).map (fun sl =>
      (interval_indices sl.1 sl.2 maxLen).map (fun i => jaxGetD row i d)))

/-- Writes one value into a packed 2-D array at row `r`, column `i`;
out-of-bounds positions are dropped (JAX scatter drop semantics). -/
def set2 (dd : List (List ℚ)) (r : Nat) (i : Int) (v : ℚ) : List (List ℚ) :=
  if 0 ≤ i then dd.set r ((dd.getD r []).set i.toNat v) else dd

/-- Applies a sequence of single-element writes in order (later writes win). -/
def apply_writes (dd : List (List ℚ)) (ws : List ((Nat × Int) × ℚ)) :
    List (List ℚ) :=
  ws.foldl (fun acc w => set2 acc w.1.1 w.1.2 w.2) dd

/-- Modelled from the spec: the scatter-back of one padded interval writes
only the real (unpadded) positions `start + k ≤ last`; padded tail positions
are discarded. -/
def interval_writes_one (row : Nat) (start last : Int) (maxLen : Nat)
    (vals : List ℚ) : List ((Nat × Int) × ℚ) :=
  ((List.range maxLen).filter (fun (k : Nat) => start + (k : Int) ≤ last)).map
    (fun (k : Nat) => ((row, start + (k : Int)), vals.getD k 0))

/-- Write list of all intervals of one detector row. -/
def interval_writes_det (row : Nat) (starts lasts : List Int) (maxLen : Nat)
    (vals : List (List ℚ)) : List ((Nat × Int) × ℚ) :=
  (((List.zip starts lasts).zip vals).map
    (fun x => interval_writes_one row x.1.1 x.1.2 maxLen x.2)).flatten

/-- Modelled from the spec: `JaxIntervals.set`
(`det_data[det_data_index, intervals] = new_det_data_interval`, scan_map.py
lines 186-190) scatters the per-detector, per-interval results back into the
packed timestream at exactly the real interval positions. -/
def intervals_set (dd : List (List ℚ)) (index : List Int)
    (starts lasts : List Int) (maxLen : Nat)
    (vals : List (List (List ℚ))) : List (List ℚ) :=
  apply_writes dd
    (((List.zip index vals).map
      (fun x => interval_writes_det (jaxIndex dd.length x.1) starts lasts maxLen
        x.2)).flatten)

/-- The `weights` / `weight_index` arguments of `scan_map_interval`: either
`weight_index is None`, a 2-D weights array, or a 3-D weights array
(the three cases of scan_map.py lines 162-171). -/
inductive WeightsArg
  | noweights : WeightsArg
  | w2 : List (List ℚ) → List Int → WeightsArg
  | w3 : List (List (List ℚ)) → List Int → WeightsArg

/-- The `jax.vmap` axis-size consistency requirement (scan_map.py lines
91-100): the detector axes of the extracted pixel, weight and timestream
batches must have equal sizes; each batch's detector axis has the length of
the corresponding row-index array. -/
def vmap_sizes_ok (weights : WeightsArg) (pixels_index det_data_index : List Int) :
    Bool :=
  match weights with
  | WeightsArg.noweights => pixels_index.length == det_data_index.length
  | WeightsArg.w2 _ wi =>
      pixels_index.length == det_data_index.length &&
        wi.length == det_data_index.length
  | WeightsArg.w3 _ wi =>
      pixels_index.length == det_data_index.length &&
        wi.length == det_data_index.length

/-- Embedding of `scan_map_interval` (scan_map.py lines 103-191): reshape the
flat map, extract the padded per-detector, per-interval batches, run the
vmapped `scan_map_inner`, and scatter the results back. -/
def scan_map_interval (mapdata : List ℚ) (nmap : Int) (npix_submap : Int)
    (global2local : List Int) (det_data : List (List ℚ))
    (det_data_index : List Int) (pixels : List (List Int))
    (pixels_index : List Int) (weights : WeightsArg)
    (interval_starts interval_ends : List Int) (intervals_max_length : Nat)
    (data_scale : ℚ) (should_zero should_subtract : Bool) :
    Except String (List (List ℚ)) := do
  let mapdata3 ← reshape_submaps mapdata npix_submap nmap
  let pixels_interval :=
    intervals_get pixels pixels_index interval_starts interval_ends
      intervals_max_length 0
  let det_data_interval :=
    intervals_get det_data det_data_index interval_starts interval_ends
      intervals_max_length 0
  if vmap_sizes_ok weights pixels_index det_data_index then
    match weights with
    | WeightsArg.w3 w windex =>
        let weights_interval :=
          intervals_get w windex interval_starts interval_ends
            intervals_max_length []
        let new := List.zipWith3 (fun pd wd ddp =>
            List.zipWith3 (fun pv wv ddv =>
              scan_map_inner mapdata3 npix_submap global2local pv wv ddv
                data_scale should_zero should_subtract) pd wd ddp)
          pixels_interval weights_interval det_data_interval
        pure (intervals_set det_data det_data_index interval_starts
          interval_ends intervals_max_length new)
    | WeightsArg.noweights =>
        let weights_interval :=
          pixels_interval.map (fun pd => pd.map (fun pv =>
            pv.map (fun _ => (1 : ℚ))))
        let new ← (List.zipWith3 (fun pd wd ddp => (pd, wd, ddp))
            pixels_interval weights_interval det_data_interval).mapM
          (fun x => (List.zipWith3 (fun pv wv ddv => (pv, wv, ddv))
              x.1 x.2.1 x.2.2).mapM
            (fun y => scan_map_inner_w1 mapdata3 npix_submap global2local
              y.1 y.2.1 y.2.2 data_scale should_zero should_subtract))
        pure (intervals_set det_data det_data_index interval_starts
          interval_ends intervals_max_length new)
    | WeightsArg.w2 w windex =>
        let weights_interval :=
          intervals_get w windex interval_starts interval_ends
            intervals_max_length (0 : ℚ)
        let new ← (List.zipWith3 (fun pd wd ddp => (pd, wd, ddp))
            pixels_interval weights_interval det_data_interval).mapM
          (fun x => (List.zipWith3 (fun pv wv ddv => (pv, wv, ddv))
              x.1 x.2.1 x.2.2).mapM
            (fun y => scan_map_inner_w1 mapdata3 npix_submap global2local
              y.1 y.2.1 y.2.2 data_scale should_zero should_subtract))
        pure (intervals_set det_data det_data_index interval_starts
          interval_ends intervals_max_length new)
  else
    Except.error "vmap got inconsistent sizes for array axes to be mapped"

/-- Modelled from the spec: `INTERVALS_JAX.compute_max_intervals_length`
(module `toast.jax.intervals`, not among the provided sources) returns
`maxLength`, the length of the longest interval in the set. -/
def compute_max_intervals_length (firsts lasts : List Int) : Nat :=
  (List.zip firsts lasts).foldl (fun m sl => max m (sl.2 + 1 - sl.1).toNat) 0

/-- Embedding of the top-level `scan_map` (scan_map.py lines 208-282): it
extracts `npix_submap` and `global2local` from the pixel distribution,
computes the maximal interval length and runs `scan_map_interval`; the packed
timestream is overwritten with the result only when no error is raised. -/
def scan_map (mapdata : List ℚ) (nmap : Int) (det_data : List (List ℚ))
    (det_data_index : List Int) (pixels : List (List Int))
    (pixels_index : List Int) (weights : WeightsArg)
    (interval_firsts interval_lasts : List Int) (npix_submap : Int)
    (global2local : List Int) (data_scale : ℚ)
    (should_zero should_subtract : Bool) : Except String (List (List ℚ)) :=
  scan_map_interval mapdata nmap npix_submap global2local det_data
    det_data_index pixels pixels_index weights interval_firsts interval_lasts
    (compute_max_intervals_length interval_firsts interval_lasts) data_scale
    should_zero should_subtract

/-- Entry of a packed 2-D array at row `r`, column `j` (default 0). -/
def getD2 (dd : List (List ℚ)) (r j : Nat) : ℚ := (dd.getD r []).getD j 0

/-- Length of row `r` of a packed 2-D array. -/
def rowLen (dd : List (List ℚ)) (r : Nat) : Nat := (dd.getD r []).length

/-- Value of the last write at position `p` in a write list, if any. -/
def lookupLast (ws : List ((Nat × Int) × ℚ)) (p : Nat × Int) : Option ℚ :=
  match ws with
  | [] => none
  | w :: rest =>
      match lookupLast rest p with
      | some v => some v
      | none => if w.1 = p then some w.2 else none

/-- Last element of `L` whose position (under `P`) is `p`, if any. -/
def lastMatch (L : List τ) (P : τ → Nat × Int) (p : Nat × Int) : Option τ :=
  match L with
  | [] => none
  | t :: rest =>
      match lastMatch rest P p with
      | some t0 => some t0
      | none => if P t = p then some t else none

/-- The ordered `(detector, interval, offset)` triples scattered by
`intervals_set`: for each detector `d`, each interval `v` and each real
(unpadded) offset `k` of that interval. -/
def scatter_triples (ndet : Nat) (starts lasts : List Int) (maxLen : Nat) :
    List (Nat × Nat × Nat) :=
  ((List.range ndet).map (fun d =>
    ((List.range (min starts.length lasts.length)).map (fun v =>
      ((List.range maxLen).filter
        (fun (k : Nat) => starts.getD v 0 + (k : Int) ≤ lasts.getD v 0)).map
        (fun k => (d, v, k)))).flatten)).flatten

/-- Processing the intervals one at a time: fold `scan_map_interval` over the
intervals, each call seeing a single interval padded to its own length (the
`maxLength` that `scan_map` would compute for that singleton set). -/
def scan_intervals_one_by_one (mapdata : List ℚ) (nmap npix_submap : Int)
    (global2local : List Int) (det_data : List (List ℚ))
    (det_data_index : List Int) (pixels : List (List Int))
    (pixels_index : List Int) (weights : WeightsArg)
    (starts lasts : List Int) (data_scale : ℚ)
    (should_zero should_subtract : Bool) : Except String (List (List ℚ)) :=
  (List.zip starts lasts).foldlM (fun dd sl =>
    scan_map_interval mapdata nmap npix_submap global2local dd det_data_index
      pixels pixels_index weights [sl.1] [sl.2]
      (compute_max_intervals_length [sl.1] [sl.2]) data_scale should_zero
      should_subtract) det_data

/-! ### Helper lemmas -/

theorem zipWith_ext (f g : α → β → γ) (h : ∀ a b, f a b = g a b) :
    ∀ (l1 : List α) (l2 : List β), List.zipWith f l1 l2 = List.zipWith g l1 l2 := by
  intro l1
  induction l1 with
  | nil => intro l2; simp
  | cons a l1 ih =>
      intro l2
      cases l2 with
      | nil => simp
      | cons b l2 => simp [h, ih]

theorem getD_map (f : α → β) (l : List α) (i : Nat) (d1 : α) (d2 : β)
    (h : i < l.length) : (l.map f).getD i d2 = f (l.getD i d1) := by
  induction l generalizing i with
  | nil => simp at h
  | cons a l ih =>
      cases i with
      | zero => simp
      | succ i => simpa using ih i (by simpa using h)

theorem getD_zipWith (f : α → β → γ) (l1 : List α) (l2 : List β) (i : Nat)
    (d1 : α) (d2 : β) (d3 : γ) (h1 : i < l1.length) (h2 : i < l2.length) :
    (List.zipWith f l1 l2).getD i d3 = f (l1.getD i d1) (l2.getD i d2) := by
  induction l1 generalizing l2 i with
  | nil => simp at h1
  | cons a l1 ih =>
      cases l2 with
      | nil => simp at h2
      | cons b l2 =>
          cases i with
          | zero => simp
          | succ i =>
              simpa using ih l2 i (by simpa using h1) (by simpa using h2)

theorem jaxIndex_of_bounds (n : Nat) (i : Int) (h0 : 0 ≤ i) (h1 : i < n) :
    jaxIndex n i = i.toNat := by
  simp only [jaxIndex]
  rw [if_neg (by omega)]
  omega

theorem jaxGetD_of_bounds (xs : List α) (i : Int) (d : α) (h0 : 0 ≤ i)
    (h1 : i < xs.length) : jaxGetD xs i d = xs.getD i.toNat d := by
  unfold jaxGetD
  rw [jaxIndex_of_bounds _ _ h0 h1]
  have : xs.isEmpty = false := by
    cases xs with
    | nil => simp at h1; omega
    | cons a l => rfl
  simp [this]

theorem zero_dot (row : List ℚ) :
    ∀ w : List ℚ,
      (List.zipWith (· * ·) (row.map (fun _ => (0 : ℚ))) w).sum = 0 := by
  induction row with
  | nil => intro w; simp
  | cons a row ih =>
      intro w
      cases w with
      | nil => simp
      | cons b w => simpa using ih w

theorem dot_zero_right (row : List ℚ) :
    ∀ w : List ℚ, (∀ x ∈ w, x = 0) →
      (List.zipWith (· * ·) row w).sum = 0 := by
  induction row with
  | nil => intro w _; simp
  | cons a row ih =>
      intro w hw
      cases w with
      | nil => simp
      | cons b w =>
          have hb : b = 0 := hw b (by simp)
          have hrest : ∀ x ∈ w, x = 0 := fun x hx => hw x (by simp [hx])
          simp [hb, ih w hrest]

theorem g2l_fst_getD (pixels : List Int) (npix_submap : Int)
    (global2local : List Int) (i : Nat) (hi : i < pixels.length) :
    (global_to_local pixels npix_submap global2local).1.getD i 0 =
      if pixels.getD i 0 < 0 then -1
      else jaxGetD global2local ((pixels.getD i 0).fdiv npix_submap) 0 := by
  have hq : i < (pixels.map (fun p => Int.fdiv p npix_submap)).length := by
    simpa using hi
  simp only [global_to_local]
  rw [getD_zipWith _ pixels _ i 0 0 _ hi hq, getD_map _ _ _ 0 _ hi]

theorem g2l_snd_getD (pixels : List Int) (npix_submap : Int)
    (global2local : List Int) (i : Nat) (hi : i < pixels.length) :
    (global_to_local pixels npix_submap global2local).2.getD i 0 =
      if pixels.getD i 0 < 0 then -1
      else (pixels.getD i 0).fmod npix_submap := by
  have hr : i < (pixels.map (fun p => Int.fmod p npix_submap)).length := by
    simpa using hi
  simp only [global_to_local]
  rw [getD_zipWith _ pixels _ i 0 0 _ hi hr, getD_map _ _ _ 0 _ hi]

theorem gathered_length (mapdata : List (List (List ℚ))) (npix_submap : Int)
    (global2local : List Int) (pixels : List Int) :
    (scan_map_gathered mapdata npix_submap global2local pixels).length =
      pixels.length := by
  simp [scan_map_gathered, global_to_local]

theorem gathered_getD (mapdata : List (List (List ℚ))) (npix_submap : Int)
    (global2local : List Int) (pixels : List Int) (i : Nat)
    (hi : i < pixels.length) :
    (scan_map_gathered mapdata npix_submap global2local pixels).getD i [] =
      (fun s q =>
        let row := jaxGetD (jaxGetD mapdata s []) q []
        if 0 ≤ q ∧ 0 ≤ s then row else row.map (fun _ => (0 : ℚ)))
      ((global_to_local pixels npix_submap global2local).1.getD i 0)
      ((global_to_local pixels npix_submap global2local).2.getD i 0) := by
  have h1 : i < (global_to_local pixels npix_submap global2local).1.length := by
    simp [global_to_local]; omega
  have h2 : i < (global_to_local pixels npix_submap global2local).2.length := by
    simp [global_to_local]; omega
  simp only [scan_map_gathered]
  rw [getD_zipWith _ _ _ i 0 0 _ h1 h2]

theorem zipWith_dot_zero (md : List (List ℚ)) :
    ∀ ws : List (List ℚ), (∀ w ∈ ws, ∀ x ∈ w, x = 0) →
      ∀ y ∈ List.zipWith (fun row w => (List.zipWith (· * ·) row w).sum) md ws,
        y = 0 := by
  induction md with
  | nil => intro ws _ y hy; simp at hy
  | cons row md ih =>
      intro ws hws y hy
      cases ws with
      | nil => simp at hy
      | cons w ws =>
          rcases List.mem_cons.mp (by simpa using hy) with h | h
          · rw [h]
            exact dot_zero_right row w (fun x hx => hws w (by simp) x hx)
          · exact ih ws (fun w2 h2 x hx => hws w2 (by simp [h2]) x hx) y h

theorem set_of_le (l : List α) (n : Nat) (a : α) (h : l.length ≤ n) :
    l.set n a = l := by
  induction l generalizing n with
  | nil => simp
  | cons x l ih =>
      cases n with
      | zero => simp at h
      | succ n => simp [ih n (by simpa using h)]

theorem getD_set_self (l : List α) (n : Nat) (a d : α) (h : n < l.length) :
    (l.set n a).getD n d = a := by
  induction l generalizing n with
  | nil => simp at h
  | cons x l ih =>
      cases n with
      | zero => simp
      | succ n => simpa using ih n (by simpa using h)

theorem getD_set_ne (l : List α) (n m : Nat) (a d : α) (h : n ≠ m) :
    (l.set n a).getD m d = l.getD m d := by
  induction l generalizing n m with
  | nil => simp
  | cons x l ih =>
      cases n with
      | zero =>
          cases m with
          | zero => exact absurd rfl h
          | succ m => simp
      | succ n =>
          cases m with
          | zero => simp
          | succ m => simpa using ih n m (by omega)

theorem length_set2 (dd : List (List ℚ)) (r : Nat) (i : Int) (v : ℚ) :
    (set2 dd r i v).length = dd.length := by
  unfold set2
  split <;> simp

theorem rowLen_set2 (dd : List (List ℚ)) (r : Nat) (i : Int) (v : ℚ)
    (r' : Nat) : rowLen (set2 dd r i v) r' = rowLen dd r' := by
  unfold set2 rowLen
  split
  · by_cases hr : r = r'
    · subst hr
      by_cases hlt : r < dd.length
      · rw [getD_set_self _ _ _ _ hlt]
        simp
      · rw [set_of_le _ _ _ (by omega)]
    · rw [getD_set_ne _ _ _ _ _ hr]
  · rfl

theorem getD2_set2_self (dd : List (List ℚ)) (r : Nat) (i : Int) (v : ℚ)
    (hr : r < dd.length) (h0 : 0 ≤ i) (hi : i.toNat < rowLen dd r) :
    getD2 (set2 dd r i v) r i.toNat = v := by
  unfold set2 getD2
  rw [if_pos h0, getD_set_self _ _ _ _ hr, getD_set_self _ _ _ _ hi]

theorem getD2_set2_ne (dd : List (List ℚ)) (r : Nat) (i : Int) (v : ℚ)
    (r' j : Nat) (h : (r, i) ≠ (r', (j : Int))) :
    getD2 (set2 dd r i v) r' j = getD2 dd r' j := by
  unfold set2 getD2
  split
  · next h0 =>
      by_cases hr : r = r'
      · subst hr
        have hij : i ≠ (j : Int) := by
          intro hij
          exact h (by rw [hij])
        by_cases hlt : r < dd.length
        · rw [getD_set_self _ _ _ _ hlt, getD_set_ne _ _ _ _ _ (by omega)]
        · rw [set_of_le _ _ _ (by omega)]
      · rw [getD_set_ne _ _ _ _ _ hr]
  · rfl

theorem length_apply_writes (ws : List ((Nat × Int) × ℚ)) :
    ∀ dd : List (List ℚ), (apply_writes dd ws).length = dd.length := by
  induction ws with
  | nil => intro dd; rfl
  | cons w ws ih =>
      intro dd
      rw [show apply_writes dd (w :: ws) =
        apply_writes (set2 dd w.1.1 w.1.2 w.2) ws from rfl, ih, length_set2]

theorem rowLen_apply_writes (ws : List ((Nat × Int) × ℚ)) :
    ∀ (dd : List (List ℚ)) (r : Nat),
      rowLen (apply_writes dd ws) r = rowLen dd r := by
  induction ws with
  | nil => intro dd r; rfl
  | cons w ws ih =>
      intro dd r
      rw [show apply_writes dd (w :: ws) =
        apply_writes (set2 dd w.1.1 w.1.2 w.2) ws from rfl, ih, rowLen_set2]

theorem getD2_apply_writes (ws : List ((Nat × Int) × ℚ)) :
    ∀ (dd : List (List ℚ)) (r j : Nat), r < dd.length → j < rowLen dd r →
      getD2 (apply_writes dd ws) r j =
        (lookupLast ws (r, (j : Int))).getD (getD2 dd r j) := by
  induction ws with
  | nil => intro dd r j _ _; rfl
  | cons w ws ih =>
      intro dd r j hr hj
      rw [show apply_writes dd (w :: ws) =
        apply_writes (set2 dd w.1.1 w.1.2 w.2) ws from rfl,
        ih _ r j (by rw [length_set2]; exact hr)
          (by rw [rowLen_set2]; exact hj)]
      cases hLL : lookupLast ws (r, (j : Int)) with
      | some v => simp [lookupLast, hLL]
      | none =>
          simp only [lookupLast, hLL, Option.getD_none]
          by_cases hw : w.1 = (r, (j : Int))
          · rw [if_pos hw]
            have h1 : w.1.1 = r := by rw [hw]
            have h2 : w.1.2 = (j : Int) := by rw [hw]
            have h0 : 0 ≤ w.1.2 := by rw [h2]; exact Int.ofNat_nonneg j
            have htn : w.1.2.toNat = j := by omega
            calc getD2 (set2 dd w.1.1 w.1.2 w.2) r j
                = getD2 (set2 dd r w.1.2 w.2) r w.1.2.toNat := by rw [h1, htn]
              _ = w.2 := getD2_set2_self dd r w.1.2 w.2 hr h0 (by omega)
              _ = (some w.2).getD (getD2 dd r j) := rfl
          · rw [if_neg hw, getD2_set2_ne dd _ _ _ r j (by
              intro hc
              exact hw (by rw [← hc])), Option.getD_none]

theorem getD2_apply_writes_nomatch (ws : List ((Nat × Int) × ℚ)) :
    ∀ (dd : List (List ℚ)) (r j : Nat),
      (∀ w ∈ ws, w.1 ≠ (r, (j : Int))) →
      getD2 (apply_writes dd ws) r j = getD2 dd r j := by
  induction ws with
  | nil => intro dd r j _; rfl
  | cons w ws ih =>
      intro dd r j hno
      rw [show apply_writes dd (w :: ws) =
        apply_writes (set2 dd w.1.1 w.1.2 w.2) ws from rfl,
        ih _ r j (fun w2 h2 => hno w2 (by simp [h2])),
        getD2_set2_ne dd _ _ _ r j (by
          intro hc
          exact hno w (by simp) (by rw [← hc]))]

theorem lookupLast_map (L : List τ) (P : τ → Nat × Int) (F : τ → ℚ)
    (p : Nat × Int) :
    lookupLast (L.map (fun t => (P t, F t))) p = (lastMatch L P p).map F := by
  induction L with
  | nil => rfl
  | cons t L ih =>
      simp only [List.map_cons, lookupLast, lastMatch, ih]
      cases lastMatch L P p with
      | some t0 => rfl
      | none =>
          by_cases hP : P t = p
          · simp [hP]
          · simp [hP]

theorem lastMatch_pos (L : List τ) (P : τ → Nat × Int) (p : Nat × Int) :
    ∀ t, lastMatch L P p = some t → P t = p := by
  induction L with
  | nil => intro t h; simp [lastMatch] at h
  | cons t0 L ih =>
      intro t h
      simp only [lastMatch] at h
      cases hL : lastMatch L P p with
      | some t1 =>
          rw [hL] at h
          have ht : t1 = t := Option.some_inj.mp h
          exact ih t (ht ▸ hL)
      | none =>
          rw [hL] at h
          by_cases hP : P t0 = p
          · rw [if_pos hP] at h
            rw [← Option.some_inj.mp h]
            exact hP
          · rw [if_neg hP] at h
            simp at h

theorem lastMatch_mem (L : List τ) (P : τ → Nat × Int) (p : Nat × Int) :
    ∀ t, lastMatch L P p = some t → t ∈ L := by
  induction L with
  | nil => intro t h; simp [lastMatch] at h
  | cons t0 L ih =>
      intro t h
      simp only [lastMatch] at h
      cases hL : lastMatch L P p with
      | some t1 =>
          rw [hL] at h
          have : t1 = t := Option.some_inj.mp h
          exact List.mem_cons.mpr (Or.inr (ih t (this ▸ hL)))
      | none =>
          rw [hL] at h
          by_cases hP : P t0 = p
          · rw [if_pos hP] at h
            exact List.mem_cons.mpr (Or.inl (Option.some_inj.mp h).symm)
          · rw [if_neg hP] at h
            simp at h

theorem lookupLast_eq_none (ws : List ((Nat × Int) × ℚ)) (p : Nat × Int)
    (h : ∀ w ∈ ws, w.1 ≠ p) : lookupLast ws p = none := by
  induction ws with
  | nil => rfl
  | cons w ws ih =>
      simp only [lookupLast, ih (fun w2 h2 => h w2 (by simp [h2])),
        if_neg (h w (by simp))]

theorem getD2_ext : ∀ dd1 dd2 : List (List ℚ), dd1.length = dd2.length →
    (∀ r, r < dd1.length → rowLen dd1 r = rowLen dd2 r) →
    (∀ r j, r < dd1.length → j < rowLen dd1 r → getD2 dd1 r j = getD2 dd2 r j) →
    dd1 = dd2 := by
  intro dd1
  induction dd1 with
  | nil =>
      intro dd2 h _ _
      exact (List.length_eq_zero.mp h.symm).symm
  | cons row dd1 ih =>
      intro dd2 hlen hrow hval
      cases dd2 with
      | nil => simp at hlen
      | cons row2 dd2 =>
          have hr : row = row2 := by
            apply List.ext_getElem
            · simpa [rowLen] using hrow 0 (by simp)
            · intro j h1 h2
              have := hval 0 j (by simp) (by simpa [rowLen] using h1)
              simpa [getD2, List.getD_eq_getElem, h1, h2] using this
          rw [hr]
          rw [ih dd2 (by simpa using hlen)
            (fun r h => by simpa [rowLen] using hrow (r + 1) (by simpa using h))
            (fun r j h1 h2 => by
              simpa [getD2] using
                hval (r + 1) j (by simpa using h1)
                  (by simpa [rowLen] using h2))]

theorem length_zipWith3 (f : α → β → γ → δ) :
    ∀ (l1 : List α) (l2 : List β) (l3 : List γ),
      (List.zipWith3 f l1 l2 l3).length = min l1.length (min l2.length l3.length) := by
  intro l1
  induction l1 with
  | nil => intro l2 l3; simp [List.zipWith3]
  | cons a l1 ih =>
      intro l2 l3
      cases l2 with
      | nil => simp [List.zipWith3]
      | cons b l2 =>
          cases l3 with
          | nil => simp [List.zipWith3]
          | cons c l3 =>
              simp only [List.zipWith3, List.length_cons, ih l2 l3]
              omega

theorem getD_zipWith3 (f : α → β → γ → δ) :
    ∀ (l1 : List α) (l2 : List β) (l3 : List γ) (i : Nat) (d1 : α) (d2 : β)
      (d3 : γ) (d4 : δ), i < l1.length → i < l2.length → i < l3.length →
      (List.zipWith3 f l1 l2 l3).getD i d4 =
        f (l1.getD i d1) (l2.getD i d2) (l3.getD i d3) := by
  intro l1
  induction l1 with
  | nil => intro l2 l3 i _ _ _ _ h1 _ _; simp at h1
  | cons a l1 ih =>
      intro l2 l3 i d1 d2 d3 d4 h1 h2 h3
      cases l2 with
      | nil => simp at h2
      | cons b l2 =>
          cases l3 with
          | nil => simp at h3
          | cons c l3 =>
              cases i with
              | zero => simp [List.zipWith3]
              | succ i =>
                  simp only [List.zipWith3, List.getD_cons_succ]
                  exact ih l2 l3 i d1 d2 d3 d4 (by simpa using h1)
                    (by simpa using h2) (by simpa using h3)

theorem interval_indices_length (start last : Int) (maxLen : Nat) :
    (interval_indices start last maxLen).length = maxLen := by
  simp [interval_indices]

theorem interval_indices_getD (start last : Int) (maxLen : Nat) (k : Nat)
    (hk : k < maxLen) :
    (interval_indices start last maxLen).getD k 0 =
      min (start + (k : Int)) last := by
  simp only [interval_indices]
  rw [getD_map _ _ _ 0 _ (by simpa using hk)]
  rw [List.getD_eq_getElem _ _ (by simpa using hk)]
  simp

theorem intervals_get_length (data : List (List α)) (index : List Int)
    (starts lasts : List Int) (maxLen : Nat) (d : α) :
    (intervals_get data index starts lasts maxLen d).length = index.length := by
  simp [intervals_get]

theorem intervals_get_getD_length (data : List (List α)) (index : List Int)
    (starts lasts : List Int) (maxLen : Nat) (d0 : α) (d : Nat)
    (hd : d < index.length) :
    ((intervals_get data index starts lasts maxLen d0).getD d []).length =
      min starts.length lasts.length := by
  simp only [intervals_get]
  rw [getD_map _ _ _ 0 _ hd]
  simp

theorem intervals_get_getD_getD_length (data : List (List α))
    (index : List Int) (starts lasts : List Int) (maxLen : Nat) (d0 : α)
    (d v : Nat) (hd : d < index.length)
    (hv : v < min starts.length lasts.length) :
    (((intervals_get data index starts lasts maxLen d0).getD d []).getD v
      []).length = maxLen := by
  simp only [intervals_get]
  rw [getD_map _ _ _ 0 _ hd]
  rw [getD_map _ _ _ ((0 : Int), (0 : Int)) _ (by simpa using hv)]
  simp [interval_indices]

theorem intervals_get_value (data : List (List α)) (index : List Int)
    (starts lasts : List Int) (maxLen : Nat) (d0 : α) (d v k : Nat)
    (hd : d < index.length) (hv : v < min starts.length lasts.length)
    (hk : k < maxLen) :
    ((((intervals_get data index starts lasts maxLen d0).getD d []).getD v
      []).getD k d0) =
      jaxGetD (jaxGetD data (index.getD d 0) [])
        (min (starts.getD v 0 + (k : Int)) (lasts.getD v 0)) d0 := by
  simp only [intervals_get]
  rw [getD_map _ _ _ 0 _ hd]
  rw [getD_map _ _ _ ((0 : Int), (0 : Int)) _ (by simpa using hv)]
  rw [getD_map _ _ _ 0 _ (by simp [interval_indices]; omega)]
  rw [interval_indices_getD _ _ _ _ hk]
  have hz : (List.zip starts lasts).getD v (0, 0) =
      (starts.getD v 0, lasts.getD v 0) := by
    rw [List.getD_eq_getElem _ _ (by simpa using hv)]
    rw [List.getElem_zip]
    rw [List.getD_eq_getElem _ _ (by omega), List.getD_eq_getElem _ _ (by omega)]
  rw [hz]

theorem mem_scatter_triples (n : Nat) (starts lasts : List Int)
    (maxLen : Nat) :
    ∀ t ∈ scatter_triples n starts lasts maxLen,
      t.1 < n ∧ t.2.1 < min starts.length lasts.length ∧ t.2.2 < maxLen ∧
        starts.getD t.2.1 0 + (t.2.2 : Int) ≤ lasts.getD t.2.1 0 := by
  intro t ht
  simp only [scatter_triples, List.mem_flatten, List.mem_map] at ht
  obtain ⟨ld, ⟨d, hd, rfl⟩, htd⟩ := ht
  simp only [List.mem_flatten, List.mem_map] at htd
  obtain ⟨lv, ⟨v, hv, rfl⟩, htv⟩ := htd
  simp only [List.mem_map, List.mem_filter, List.mem_range] at htv
  obtain ⟨k, ⟨hk, hreal⟩, rfl⟩ := htv
  refine ⟨List.mem_range.mp hd, List.mem_range.mp hv, hk, ?_⟩
  simpa using hreal

theorem ext_getD (d : α) :
    ∀ l1 l2 : List α, l1.length = l2.length →
      (∀ i, i < l1.length → l1.getD i d = l2.getD i d) → l1 = l2 := by
  intro l1
  induction l1 with
  | nil =>
      intro l2 h _
      exact (List.length_eq_zero.mp h.symm).symm
  | cons x l1 ih =>
      intro l2 hlen hval
      cases l2 with
      | nil => simp at hlen
      | cons y l2 =>
          have hx : x = y := by simpa using hval 0 (by simp)
          rw [hx, ih l2 (by simpa using hlen)
            (fun i hi => by simpa using hval (i + 1) (by simpa using hi))]

theorem getD_range (n i : Nat) (h : i < n) : (List.range n).getD i 0 = i := by
  rw [List.getD_eq_getElem _ _ (by simpa using h)]
  simp

theorem intervals_set_factor (dd : List (List ℚ))
    (index starts lasts : List Int) (maxLen : Nat)
    (vals : List (List (List ℚ))) (hlen : vals.length = index.length)
    (hrow : ∀ d, d < index.length →
      (vals.getD d []).length = min starts.length lasts.length) :
    intervals_set dd index starts lasts maxLen vals =
      apply_writes dd
        ((scatter_triples index.length starts lasts maxLen).map (fun t =>
          ((jaxIndex dd.length (index.getD t.1 0),
            starts.getD t.2.1 0 + (t.2.2 : Int)),
           ((vals.getD t.1 []).getD t.2.1 []).getD t.2.2 0))) := by
  unfold intervals_set scatter_triples
  congr 1
  rw [List.map_flatten, List.map_map]
  refine congrArg List.flatten ?_
  apply ext_getD []
  · simp [hlen]
  · intro d hd1
    have hd : d < index.length := by
      simp only [List.length_map, List.length_zip, hlen, min_self] at hd1
      exact hd1
    have hzl : d < (List.zip index vals).length := by
      simp [hlen]; omega
    rw [getD_map _ _ _ (0, []) _ hzl]
    rw [getD_map _ _ _ 0 _ (by simpa using hd)]
    rw [getD_range _ _ hd]
    have hdz : (List.zip index vals).getD d (0, []) =
        (index.getD d 0, vals.getD d []) := by
      rw [List.zip]
      exact getD_zipWith _ index vals d 0 [] (0, []) hd (by omega)
    have hdz1 : ((List.zip index vals).getD d (0, [])).1 = index.getD d 0 := by
      rw [hdz]
    have hdz2 : ((List.zip index vals).getD d (0, [])).2 = vals.getD d [] := by
      rw [hdz]
    rw [hdz1, hdz2]
    simp only [Function.comp_apply]
    rw [List.map_flatten, List.map_map]
    unfold interval_writes_det
    refine congrArg List.flatten ?_
    apply ext_getD []
    · simp only [List.length_map, List.length_zip, List.length_range,
        hrow d hd]
      omega
    · intro v hv1
      have hv : v < min starts.length lasts.length := by
        simp only [List.length_map, List.length_zip, hrow d hd] at hv1
        omega
      have hzv : v < ((List.zip starts lasts).zip (vals.getD d [])).length := by
        simp only [List.length_zip, hrow d hd]
        omega
      rw [getD_map _ _ _ ((0, 0), []) _ hzv]
      rw [getD_map _ _ _ 0 _ (by simpa using hv)]
      rw [getD_range _ _ hv]
      have hvz : ((List.zip starts lasts).zip (vals.getD d [])).getD v
          ((0, 0), []) =
          ((starts.getD v 0, lasts.getD v 0), (vals.getD d []).getD v []) := by
        rw [List.zip]
        rw [getD_zipWith Prod.mk (List.zip starts lasts) (vals.getD d []) v
          (0, 0) [] ((0, 0), []) (by simpa using hv) (by rw [hrow d hd]; omega)]
        rw [List.zip]
        rw [getD_zipWith Prod.mk starts lasts v 0 0 (0, 0) (by omega) (by omega)]
      have hvz1 : (((List.zip starts lasts).zip (vals.getD d [])).getD v
          ((0, 0), [])).1.1 = starts.getD v 0 := by rw [hvz]
      have hvz2 : (((List.zip starts lasts).zip (vals.getD d [])).getD v
          ((0, 0), [])).1.2 = lasts.getD v 0 := by rw [hvz]
      have hvz3 : (((List.zip starts lasts).zip (vals.getD d [])).getD v
          ((0, 0), [])).2 = (vals.getD d []).getD v [] := by rw [hvz]
      rw [hvz1, hvz2, hvz3]
      unfold interval_writes_one
      simp only [Function.comp_apply]
      rw [List.map_map]
      rfl

theorem except_bind_ok {β γ : Type} {x : Except String β}
    {f : β → Except String γ} {r : γ} (h : (x >>= f) = Except.ok r) :
    ∃ b, x = Except.ok b ∧ f b = Except.ok r := by
  cases x with
  | error e => simp [Bind.bind, Except.bind] at h
  | ok b =>
      refine ⟨b, rfl, ?_⟩
      simpa [Bind.bind, Except.bind] using h

theorem scan_map_interval_ok_form (mapdata : List ℚ) (nmap npix_submap : Int)
    (global2local : List Int) (det_data : List (List ℚ))
    (det_data_index : List Int) (pixels : List (List Int))
    (pixels_index : List Int) (weights : WeightsArg)
    (starts lasts : List Int) (maxLen : Nat) (data_scale : ℚ)
    (z s : Bool) (res : List (List ℚ))
    (h : scan_map_interval mapdata nmap npix_submap global2local det_data
      det_data_index pixels pixels_index weights starts lasts maxLen
      data_scale z s = Except.ok res) :
    ∃ vals, res = intervals_set det_data det_data_index starts lasts maxLen
      vals := by
  unfold scan_map_interval at h
  obtain ⟨m3, hre, h⟩ := except_bind_ok h
  by_cases hvm : vmap_sizes_ok weights pixels_index det_data_index = true
  · rw [if_pos hvm] at h
    cases weights with
    | w3 w windex =>
        injection h with h2
        exact ⟨_, h2.symm⟩
    | noweights =>
        obtain ⟨new, hnew, h2⟩ := except_bind_ok h
        injection h2 with h3
        exact ⟨_, h3.symm⟩
    | w2 w windex =>
        obtain ⟨new, hnew, h2⟩ := except_bind_ok h
        injection h2 with h3
        exact ⟨_, h3.symm⟩
  · rw [if_neg hvm] at h
    simp at h

theorem intervals_set_write_mem (dd : List (List ℚ)) (index : List Int)
    (starts lasts : List Int) (maxLen : Nat) (vals : List (List (List ℚ))) :
    ∀ w ∈ (((List.zip index vals).map
      (fun x => interval_writes_det (jaxIndex dd.length x.1) starts lasts
        maxLen x.2)).flatten),
      (∃ ridx ∈ index, w.1.1 = jaxIndex dd.length ridx) ∧
      (∃ se ∈ List.zip starts lasts, se.1 ≤ w.1.2 ∧ w.1.2 ≤ se.2) := by
  intro w hw
  simp only [List.mem_flatten, List.mem_map] at hw
  obtain ⟨lw, ⟨x, hx, rfl⟩, hwl⟩ := hw
  simp only [interval_writes_det, List.mem_flatten, List.mem_map] at hwl
  obtain ⟨lw2, ⟨y, hy, rfl⟩, hw2⟩ := hwl
  simp only [interval_writes_one, List.mem_map, List.mem_filter,
    List.mem_range] at hw2
  obtain ⟨k, ⟨hk, hreal⟩, rfl⟩ := hw2
  constructor
  · exact ⟨x.1, (List.of_mem_zip hx).1, rfl⟩
  · refine ⟨y.1, (List.of_mem_zip hy).1, ?_, ?_⟩
    · show y.1.1 ≤ y.1.1 + (k : Int)
      omega
    · show y.1.1 + (k : Int) ≤ y.1.2
      simpa using hreal

theorem except_ok_bind {β γ : Type} (b : β) (f : β → Except String γ) :
    ((Except.ok b : Except String β) >>= f) = f b := rfl

theorem intervals_set_empty (dd : List (List ℚ)) (index : List Int)
    (maxLen : Nat) (vals : List (List (List ℚ))) :
    intervals_set dd index [] [] maxLen vals = dd := by
  unfold intervals_set
  have hnil : ∀ x : Int × List (List ℚ),
      interval_writes_det (jaxIndex dd.length x.1) [] [] maxLen x.2 = [] :=
    fun x => rfl
  have : ((List.zip index vals).map
      (fun x => interval_writes_det (jaxIndex dd.length x.1) [] [] maxLen
        x.2)).flatten = [] := by
    rw [show (List.zip index vals).map
        (fun x => interval_writes_det (jaxIndex dd.length x.1) [] [] maxLen
          x.2) = (List.zip index vals).map (fun _ => []) from
      List.map_congr_left (fun x _ => hnil x)]
    simp
  rw [this]
  rfl

theorem zipWith3_mk_mem_fst :
    ∀ (l1 : List α) (l2 : List β) (l3 : List γ)
      (x : α × β × γ), x ∈ List.zipWith3 (fun a b c => (a, b, c)) l1 l2 l3 →
      x.1 ∈ l1 := by
  intro l1
  induction l1 with
  | nil => intro l2 l3 x hx; simp [List.zipWith3] at hx
  | cons a l1 ih =>
      intro l2 l3 x hx
      cases l2 with
      | nil => simp [List.zipWith3] at hx
      | cons b l2 =>
          cases l3 with
          | nil => simp [List.zipWith3] at hx
          | cons c l3 =>
              simp only [List.zipWith3] at hx
              rcases List.mem_cons.mp hx with h | h
              · rw [h]; simp
              · exact List.mem_cons.mpr (Or.inr (ih l2 l3 x h))

theorem mapM_rows_of_fst_nil
    (f : List Int × List ℚ × List ℚ → Except String (List ℚ)) :
    ∀ l : List (List (List Int) × List (List ℚ) × List (List ℚ)),
      (∀ x ∈ l, x.1 = []) →
      (l.mapM (fun x => (List.zipWith3 (fun pv wv ddv => (pv, wv, ddv))
        x.1 x.2.1 x.2.2).mapM f)) = Except.ok (l.map (fun _ => [])) := by
  intro l
  induction l with
  | nil => intro _; rfl
  | cons x l ih =>
      intro h
      rw [List.mapM_cons]
      have hx : x.1 = [] := h x (by simp)
      rw [hx]
      rw [show (List.zipWith3 (fun pv wv ddv => (pv, wv, ddv))
        ([] : List (List Int)) x.2.1 x.2.2).mapM f = Except.ok [] from rfl]
      rw [except_ok_bind]
      rw [ih (fun y hy => h y (by simp [hy]))]
      rfl

theorem roundtrip_core {τ : Type} (L : List τ) (P : τ → Nat × Int)
    (U A B : τ → ℚ) (dd : List (List ℚ))
    (hA : ∀ t ∈ L, (P t).1 < dd.length → 0 ≤ (P t).2 →
      (P t).2 < (rowLen dd (P t).1 : Int) →
      A t = getD2 dd (P t).1 (P t).2.toNat)
    (hB : ∀ t ∈ L, (P t).1 < dd.length → 0 ≤ (P t).2 →
      (P t).2 < (rowLen dd (P t).1 : Int) →
      B t = getD2 (apply_writes dd (L.map (fun t => (P t, A t + U t))))
        (P t).1 (P t).2.toNat) :
    apply_writes (apply_writes dd (L.map (fun t => (P t, A t + U t))))
      (L.map (fun t => (P t, B t - U t))) = dd := by
  apply getD2_ext
  · rw [length_apply_writes, length_apply_writes]
  · intro r hr
    rw [rowLen_apply_writes, rowLen_apply_writes]
  · intro r j hr hj
    have hr' : r < dd.length := by
      rwa [length_apply_writes, length_apply_writes] at hr
    have hj' : j < rowLen dd r := by
      rwa [rowLen_apply_writes, rowLen_apply_writes] at hj
    rw [getD2_apply_writes _ _ _ _
        (by rwa [length_apply_writes]) (by rwa [rowLen_apply_writes]),
      getD2_apply_writes _ _ _ _ hr' hj', lookupLast_map, lookupLast_map]
    cases hLM : lastMatch L P (r, (j : Int)) with
    | none => simp
    | some t =>
        have hpos := lastMatch_pos L P _ t hLM
        have hmem := lastMatch_mem L P _ t hLM
        have h1 : (P t).1 = r := by rw [hpos]
        have h2 : (P t).2 = (j : Int) := by rw [hpos]
        have hb1 : (P t).1 < dd.length := by rw [h1]; exact hr'
        have hb2 : 0 ≤ (P t).2 := by rw [h2]; exact Int.ofNat_nonneg j
        have hb3 : (P t).2 < (rowLen dd (P t).1 : Int) := by
          rw [h1, h2]
          exact_mod_cast hj'
        have htn : (P t).2.toNat = j := by omega
        have hAt := hA t hmem hb1 hb2 hb3
        have hBt := hB t hmem hb1 hb2 hb3
        rw [h1, htn] at hAt hBt
        simp only [Option.map_some', Option.getD_some]
        rw [hBt, getD2_apply_writes _ _ _ _ hr' hj', lookupLast_map, hLM]
        simp only [Option.map_some', Option.getD_some]
        rw [hAt]
        ring

theorem scan_map_update_length (mapdata : List (List (List ℚ)))
    (npix_submap : Int) (global2local : List Int) (pixels : List Int)
    (weights : List (List ℚ)) (data_scale : ℚ) :
    (scan_map_update mapdata npix_submap global2local pixels weights
      data_scale).length = min pixels.length weights.length := by
  simp only [scan_map_update, List.length_map, List.length_zipWith,
    gathered_length]

theorem jaxGetD_row (dd : List (List ℚ)) (ri : Int) (h : 0 < dd.length) :
    jaxGetD dd ri [] = dd.getD (jaxIndex dd.length ri) [] := by
  unfold jaxGetD
  rw [if_neg]
  intro hc
  rw [List.isEmpty_iff] at hc
  rw [hc] at h
  simp at h

theorem scan_map_interval_w3_eq (mapdata : List ℚ) (nmap npix_submap : Int)
    (global2local : List Int) (det_data : List (List ℚ))
    (det_data_index : List Int) (pixels : List (List Int))
    (pixels_index : List Int) (w : List (List (List ℚ))) (windex : List Int)
    (starts lasts : List Int) (maxLen : Nat) (data_scale : ℚ) (z s : Bool)
    (m3 : List (List (List ℚ)))
    (hre : reshape_submaps mapdata npix_submap nmap = Except.ok m3)
    (hvm : vmap_sizes_ok (WeightsArg.w3 w windex) pixels_index det_data_index
      = true) :
    scan_map_interval mapdata nmap npix_submap global2local det_data
      det_data_index pixels pixels_index (WeightsArg.w3 w windex) starts lasts
      maxLen data_scale z s =
    Except.ok (intervals_set det_data det_data_index starts lasts maxLen
      (List.zipWith3 (fun pd wd ddp => List.zipWith3 (fun pv wv ddv =>
          scan_map_inner m3 npix_submap global2local pv wv ddv data_scale z s)
          pd wd ddp)
        (intervals_get pixels pixels_index starts lasts maxLen 0)
        (intervals_get w windex starts lasts maxLen [])
        (intervals_get det_data det_data_index starts lasts maxLen 0))) := by
  unfold scan_map_interval
  rw [hre, except_ok_bind, if_pos hvm]
  rfl

theorem vals_value (m3 : List (List (List ℚ))) (npix_submap : Int)
    (global2local : List Int) (det_data : List (List ℚ))
    (det_data_index : List Int) (pixels : List (List Int))
    (pixels_index : List Int) (w : List (List (List ℚ))) (windex : List Int)
    (starts lasts : List Int) (maxLen : Nat) (data_scale : ℚ) (sub : Bool)
    (hpi : pixels_index.length = det_data_index.length)
    (hwi : windex.length = det_data_index.length)
    (t : Nat × Nat × Nat) (hd : t.1 < det_data_index.length)
    (hv : t.2.1 < min starts.length lasts.length) (hk : t.2.2 < maxLen) :
    (((List.zipWith3 (fun pd wd ddp => List.zipWith3 (fun pv wv ddv =>
        scan_map_inner m3 npix_submap global2local pv wv ddv data_scale false
          sub) pd wd ddp)
      (intervals_get pixels pixels_index starts lasts maxLen 0)
      (intervals_get w windex starts lasts maxLen [])
      (intervals_get det_data det_data_index starts lasts maxLen
        0)).getD t.1 []).getD t.2.1 []).getD t.2.2 0 =
    (if sub then
      ((((intervals_get det_data det_data_index starts lasts maxLen
        0).getD t.1 []).getD t.2.1 []).getD t.2.2 0) -
        (scan_map_update m3 npix_submap global2local
          (((intervals_get pixels pixels_index starts lasts maxLen
            0).getD t.1 []).getD t.2.1 [])
          (((intervals_get w windex starts lasts maxLen []).getD t.1
            []).getD t.2.1 []) data_scale).getD t.2.2 0
    else
      ((((intervals_get det_data det_data_index starts lasts maxLen
        0).getD t.1 []).getD t.2.1 []).getD t.2.2 0) +
        (scan_map_update m3 npix_submap global2local
          (((intervals_get pixels pixels_index starts lasts maxLen
            0).getD t.1 []).getD t.2.1 [])
          (((intervals_get w windex starts lasts maxLen []).getD t.1
            []).getD t.2.1 []) data_scale).getD t.2.2 0) := by
  rw [getD_zipWith3 _ _ _ _ t.1 [] [] [] []
    (by rw [intervals_get_length]; omega)
    (by rw [intervals_get_length]; omega)
    (by rw [intervals_get_length]; omega)]
  rw [getD_zipWith3 _ _ _ _ t.2.1 [] [] [] []
    (by rw [intervals_get_getD_length _ _ _ _ _ _ _ (by omega)]; omega)
    (by rw [intervals_get_getD_length _ _ _ _ _ _ _ (by omega)]; omega)
    (by rw [intervals_get_getD_length _ _ _ _ _ _ _ (by omega)]; omega)]
  have hkd : t.2.2 < ((((intervals_get det_data det_data_index starts lasts
      maxLen 0).getD t.1 []).getD t.2.1 [])).length := by
    rw [intervals_get_getD_getD_length _ _ _ _ _ _ _ _ (by omega) hv]
    omega
  have hku : t.2.2 < (scan_map_update m3 npix_submap global2local
      (((intervals_get pixels pixels_index starts lasts maxLen
        0).getD t.1 []).getD t.2.1 [])
      (((intervals_get w windex starts lasts maxLen []).getD t.1
        []).getD t.2.1 []) data_scale).length := by
    rw [scan_map_update_length,
      intervals_get_getD_getD_length _ _ _ _ _ _ _ _ (by omega) hv,
      intervals_get_getD_getD_length _ _ _ _ _ _ _ _ (by omega) hv]
    omega
  cases sub with
  | false =>
      rw [show (scan_map_inner m3 npix_submap global2local
        (((intervals_get pixels pixels_index starts lasts maxLen
          0).getD t.1 []).getD t.2.1 [])
        (((intervals_get w windex starts lasts maxLen []).getD t.1
          []).getD t.2.1 [])
        (((intervals_get det_data det_data_index starts lasts maxLen
          0).getD t.1 []).getD t.2.1 []) data_scale false false) =
        List.zipWith (· + ·)
          (((intervals_get det_data det_data_index starts lasts maxLen
            0).getD t.1 []).getD t.2.1 [])
          (scan_map_update m3 npix_submap global2local
            (((intervals_get pixels pixels_index starts lasts maxLen
              0).getD t.1 []).getD t.2.1 [])
            (((intervals_get w windex starts lasts maxLen []).getD t.1
              []).getD t.2.1 []) data_scale) from rfl]
      rw [getD_zipWith _ _ _ t.2.2 0 0 0 hkd hku]
      simp
  | true =>
      rw [show (scan_map_inner m3 npix_submap global2local
        (((intervals_get pixels pixels_index starts lasts maxLen
          0).getD t.1 []).getD t.2.1 [])
        (((intervals_get w windex starts lasts maxLen []).getD t.1
          []).getD t.2.1 [])
        (((intervals_get det_data det_data_index starts lasts maxLen
          0).getD t.1 []).getD t.2.1 []) data_scale false true) =
        List.zipWith (· - ·)
          (((intervals_get det_data det_data_index starts lasts maxLen
            0).getD t.1 []).getD t.2.1 [])
          (scan_map_update m3 npix_submap global2local
            (((intervals_get pixels pixels_index starts lasts maxLen
              0).getD t.1 []).getD t.2.1 [])
            (((intervals_get w windex starts lasts maxLen []).getD t.1
              []).getD t.2.1 []) data_scale) from rfl]
      rw [getD_zipWith _ _ _ t.2.2 0 0 0 hkd hku]
      simp

theorem scan_map_interval_roundtrip (mapdata : List ℚ)
    (nmap npix_submap : Int) (global2local : List Int)
    (det_data : List (List ℚ)) (det_data_index : List Int)
    (pixels : List (List Int)) (pixels_index : List Int)
    (w : List (List (List ℚ))) (windex : List Int) (starts lasts : List Int)
    (maxLen : Nat) (data_scale : ℚ) (d1 : List (List ℚ))
    (h : scan_map_interval mapdata nmap npix_submap global2local det_data
      det_data_index pixels pixels_index (WeightsArg.w3 w windex) starts lasts
      maxLen data_scale false false = Except.ok d1) :
    scan_map_interval mapdata nmap npix_submap global2local d1 det_data_index
      pixels pixels_index (WeightsArg.w3 w windex) starts lasts maxLen
      data_scale false true = Except.ok det_data := by
  unfold scan_map_interval at h
  obtain ⟨m3, hre, h⟩ := except_bind_ok h
  by_cases hvm : vmap_sizes_ok (WeightsArg.w3 w windex) pixels_index
      det_data_index = true
  swap
  · rw [if_neg hvm] at h
    simp at h
  rw [if_pos hvm] at h
  injection h with hd1
  have hpiwi : pixels_index.length = det_data_index.length ∧
      windex.length = det_data_index.length := by
    simpa [vmap_sizes_ok, Bool.and_eq_true, beq_iff_eq] using hvm
  obtain ⟨hpi, hwi⟩ := hpiwi
  let L := scatter_triples det_data_index.length starts lasts maxLen
  let Pl : Nat × Nat × Nat → Nat × Int := fun t =>
    (jaxIndex det_data.length (det_data_index.getD t.1 0),
      starts.getD t.2.1 0 + (t.2.2 : Int))
  let Ul : Nat × Nat × Nat → ℚ := fun t =>
    (scan_map_update m3 npix_submap global2local
      (((intervals_get pixels pixels_index starts lasts maxLen
        0).getD t.1 []).getD t.2.1 [])
      (((intervals_get w windex starts lasts maxLen []).getD t.1
        []).getD t.2.1 []) data_scale).getD t.2.2 0
  let Al : Nat × Nat × Nat → ℚ := fun t =>
    jaxGetD (jaxGetD det_data (det_data_index.getD t.1 0) [])
      (starts.getD t.2.1 0 + (t.2.2 : Int)) 0
  let Bl : Nat × Nat × Nat → ℚ := fun t =>
    jaxGetD (jaxGetD d1 (det_data_index.getD t.1 0) [])
      (starts.getD t.2.1 0 + (t.2.2 : Int)) 0
  -- shapes of the first-pass values
  have hlen_v1 : (List.zipWith3 (fun pd wd ddp => List.zipWith3
      (fun pv wv ddv => scan_map_inner m3 npix_submap global2local pv wv ddv
        data_scale false false) pd wd ddp)
      (intervals_get pixels pixels_index starts lasts maxLen 0)
      (intervals_get w windex starts lasts maxLen [])
      (intervals_get det_data det_data_index starts lasts maxLen
        0)).length = det_data_index.length := by
    rw [length_zipWith3, intervals_get_length, intervals_get_length,
      intervals_get_length]
    omega
  have hrow_v1 : ∀ d, d < det_data_index.length →
      ((List.zipWith3 (fun pd wd ddp => List.zipWith3
        (fun pv wv ddv => scan_map_inner m3 npix_submap global2local pv wv ddv
          data_scale false false) pd wd ddp)
        (intervals_get pixels pixels_index starts lasts maxLen 0)
        (intervals_get w windex starts lasts maxLen [])
        (intervals_get det_data det_data_index starts lasts maxLen
          0)).getD d []).length = min starts.length lasts.length := by
    intro d hd
    rw [getD_zipWith3 _ _ _ _ d [] [] [] []
      (by rw [intervals_get_length]; omega)
      (by rw [intervals_get_length]; omega)
      (by rw [intervals_get_length]; omega)]
    rw [length_zipWith3,
      intervals_get_getD_length _ _ _ _ _ _ _ (by omega),
      intervals_get_getD_length _ _ _ _ _ _ _ (by omega),
      intervals_get_getD_length _ _ _ _ _ _ _ (by omega)]
    omega
  have hlen_v2 : (List.zipWith3 (fun pd wd ddp => List.zipWith3
      (fun pv wv ddv => scan_map_inner m3 npix_submap global2local pv wv ddv
        data_scale false true) pd wd ddp)
      (intervals_get pixels pixels_index starts lasts maxLen 0)
      (intervals_get w windex starts lasts maxLen [])
      (intervals_get d1 det_data_index starts lasts maxLen
        0)).length = det_data_index.length := by
    rw [length_zipWith3, intervals_get_length, intervals_get_length,
      intervals_get_length]
    omega
  have hrow_v2 : ∀ d, d < det_data_index.length →
      ((List.zipWith3 (fun pd wd ddp => List.zipWith3
        (fun pv wv ddv => scan_map_inner m3 npix_submap global2local pv wv ddv
          data_scale false true) pd wd ddp)
        (intervals_get pixels pixels_index starts lasts maxLen 0)
        (intervals_get w windex starts lasts maxLen [])
        (intervals_get d1 det_data_index starts lasts maxLen
          0)).getD d []).length = min starts.length lasts.length := by
    intro d hd
    rw [getD_zipWith3 _ _ _ _ d [] [] [] []
      (by rw [intervals_get_length]; omega)
      (by rw [intervals_get_length]; omega)
      (by rw [intervals_get_length]; omega)]
    rw [length_zipWith3,
      intervals_get_getD_length _ _ _ _ _ _ _ (by omega),
      intervals_get_getD_length _ _ _ _ _ _ _ (by omega),
      intervals_get_getD_length _ _ _ _ _ _ _ (by omega)]
    omega
  have hfac1 := intervals_set_factor det_data det_data_index starts lasts
    maxLen _ hlen_v1 hrow_v1
  have hfac2 := intervals_set_factor d1 det_data_index starts lasts
    maxLen _ hlen_v2 hrow_v2
  have hd1len : d1.length = det_data.length := by
    rw [← hd1]
    unfold intervals_set
    exact length_apply_writes _ _
  have hd1row : ∀ r, rowLen d1 r = rowLen det_data r := by
    intro r
    rw [← hd1]
    unfold intervals_set
    exact rowLen_apply_writes _ _ _
  rw [hd1len] at hfac2
  -- payload normalization of pass 1
  have hmap1 : (scatter_triples det_data_index.length starts lasts
      maxLen).map (fun t =>
        ((jaxIndex det_data.length (det_data_index.getD t.1 0),
          starts.getD t.2.1 0 + (t.2.2 : Int)),
         ((((List.zipWith3 (fun pd wd ddp => List.zipWith3
           (fun pv wv ddv => scan_map_inner m3 npix_submap global2local pv wv
             ddv data_scale false false) pd wd ddp)
           (intervals_get pixels pixels_index starts lasts maxLen 0)
           (intervals_get w windex starts lasts maxLen [])
           (intervals_get det_data det_data_index starts lasts maxLen
             0)).getD t.1 []).getD t.2.1 []).getD t.2.2 0))) =
      (scatter_triples det_data_index.length starts lasts maxLen).map
        (fun t => (Pl t, Al t + Ul t)) := by
    apply List.map_congr_left
    intro t ht
    obtain ⟨htd, htv, htk, htreal⟩ :=
      mem_scatter_triples _ _ _ _ t ht
    have hval := vals_value m3 npix_submap global2local det_data
      det_data_index pixels pixels_index w windex starts lasts maxLen
      data_scale false hpi hwi t htd htv htk
    simp only [Bool.false_eq_true, if_false] at hval
    have hddv := intervals_get_value det_data det_data_index starts lasts
      maxLen 0 t.1 t.2.1 t.2.2 htd htv htk
    rw [min_eq_left htreal] at hddv
    rw [hval, hddv]
  -- payload normalization of pass 2
  have hmap2 : (scatter_triples det_data_index.length starts lasts
      maxLen).map (fun t =>
        ((jaxIndex det_data.length (det_data_index.getD t.1 0),
          starts.getD t.2.1 0 + (t.2.2 : Int)),
         ((((List.zipWith3 (fun pd wd ddp => List.zipWith3
           (fun pv wv ddv => scan_map_inner m3 npix_submap global2local pv wv
             ddv data_scale false true) pd wd ddp)
           (intervals_get pixels pixels_index starts lasts maxLen 0)
           (intervals_get w windex starts lasts maxLen [])
           (intervals_get d1 det_data_index starts lasts maxLen
             0)).getD t.1 []).getD t.2.1 []).getD t.2.2 0))) =
      (scatter_triples det_data_index.length starts lasts maxLen).map
        (fun t => (Pl t, Bl t - Ul t)) := by
    apply List.map_congr_left
    intro t ht
    obtain ⟨htd, htv, htk, htreal⟩ :=
      mem_scatter_triples _ _ _ _ t ht
    have hval := vals_value m3 npix_submap global2local d1
      det_data_index pixels pixels_index w windex starts lasts maxLen
      data_scale true hpi hwi t htd htv htk
    simp only [if_true] at hval
    have hddv := intervals_get_value d1 det_data_index starts lasts
      maxLen 0 t.1 t.2.1 t.2.2 htd htv htk
    rw [min_eq_left htreal] at hddv
    rw [hval, hddv]
  have hd1eq : d1 = apply_writes det_data
      ((scatter_triples det_data_index.length starts lasts maxLen).map
        (fun t => (Pl t, Al t + Ul t))) := by
    rw [← hd1, hfac1, hmap1]
  -- the two hypotheses of the generic round-trip lemma
  have hA : ∀ t ∈ scatter_triples det_data_index.length starts lasts maxLen,
      (Pl t).1 < det_data.length → 0 ≤ (Pl t).2 →
      (Pl t).2 < (rowLen det_data (Pl t).1 : Int) →
      Al t = getD2 det_data (Pl t).1 (Pl t).2.toNat := by
    intro t _ hb1 hb2 hb3
    have hb1' : jaxIndex det_data.length (det_data_index.getD t.1 0) <
        det_data.length := hb1
    have hb2' : (0 : Int) ≤ starts.getD t.2.1 0 + (t.2.2 : Int) := hb2
    have hb3' : starts.getD t.2.1 0 + (t.2.2 : Int) <
        ((det_data.getD (jaxIndex det_data.length
          (det_data_index.getD t.1 0)) []).length : Int) := hb3
    show jaxGetD (jaxGetD det_data (det_data_index.getD t.1 0) [])
      (starts.getD t.2.1 0 + (t.2.2 : Int)) 0 = _
    rw [jaxGetD_row det_data _ (by omega)]
    exact jaxGetD_of_bounds _ _ _ hb2' hb3'
  have hB : ∀ t ∈ scatter_triples det_data_index.length starts lasts maxLen,
      (Pl t).1 < det_data.length → 0 ≤ (Pl t).2 →
      (Pl t).2 < (rowLen det_data (Pl t).1 : Int) →
      Bl t = getD2 (apply_writes det_data
        ((scatter_triples det_data_index.length starts lasts maxLen).map
          (fun t => (Pl t, Al t + Ul t)))) (Pl t).1 (Pl t).2.toNat := by
    intro t _ hb1 hb2 hb3
    rw [← hd1eq]
    have hb1' : jaxIndex det_data.length (det_data_index.getD t.1 0) <
        det_data.length := hb1
    have hb2' : (0 : Int) ≤ starts.getD t.2.1 0 + (t.2.2 : Int) := hb2
    have hb3' : starts.getD t.2.1 0 + (t.2.2 : Int) <
        ((d1.getD (jaxIndex det_data.length
          (det_data_index.getD t.1 0)) []).length : Int) := by
      have := hd1row (jaxIndex det_data.length (det_data_index.getD t.1 0))
      unfold rowLen at this
      rw [this]
      exact hb3
    show jaxGetD (jaxGetD d1 (det_data_index.getD t.1 0) [])
      (starts.getD t.2.1 0 + (t.2.2 : Int)) 0 = _
    rw [jaxGetD_row d1 _ (by omega), hd1len]
    exact jaxGetD_of_bounds _ _ _ hb2' hb3'
  -- assemble
  rw [scan_map_interval_w3_eq mapdata nmap npix_submap global2local d1
    det_data_index pixels pixels_index w windex starts lasts maxLen data_scale
    false true m3 hre hvm]
  refine congrArg Except.ok ?_
  rw [hfac2, hmap2, hd1eq]
  exact roundtrip_core _ Pl Ul Al Bl det_data hA hB

theorem scan_map_inner_comb (mapdata : List (List (List ℚ)))
    (npix_submap : Int) (global2local : List Int) (pixels : List Int)
    (weights : List (List ℚ)) (det_data : List ℚ) (data_scale : ℚ)
    (z s : Bool) :
    scan_map_inner mapdata npix_submap global2local pixels weights det_data
        data_scale z s =
      List.zipWith (fun old u => (if z then 0 else old) +
        (if s then -u else u)) det_data
        (scan_map_update mapdata npix_submap global2local pixels weights
          data_scale) := by
  unfold scan_map_inner
  cases z <;> cases s <;>
    simp only [Bool.false_eq_true, if_false, if_true, List.zipWith_map_left] <;>
    exact zipWith_ext _ _ (fun a b => by ring) _ _

theorem filter_range_le (a b : Int) :
    ∀ m : Nat, (List.range m).filter (fun (k : Nat) => a + (k : Int) ≤ b) =
      List.range (min m ((b + 1 - a).toNat)) := by
  intro m
  induction m with
  | zero => simp
  | succ m ih =>
      rw [List.range_succ, List.filter_append, ih]
      by_cases hm : m < (b + 1 - a).toNat
      · have hle : a + (m : Int) ≤ b := by omega
        have : min (m + 1) ((b + 1 - a).toNat) = min m ((b + 1 - a).toNat)
            + 1 := by omega
        rw [this, List.range_succ]
        simp only [List.filter_cons, List.filter_nil, hle]
        have hmin : min m ((b + 1 - a).toNat) = m := by omega
        simp [hmin, decide_eq_true_eq, hle]
      · have hle : ¬(a + (m : Int) ≤ b) := by omega
        have : min (m + 1) ((b + 1 - a).toNat) = min m ((b + 1 - a).toNat) :=
          by omega
        rw [this]
        simp [hle]

theorem interval_writes_one_congr (row : Nat) (a b : Int) (m1 m2 : Nat)
    (v1 v2 : List ℚ) (h1 : (b + 1 - a).toNat ≤ m1)
    (h2 : (b + 1 - a).toNat ≤ m2)
    (hv : ∀ k, k < (b + 1 - a).toNat → v1.getD k 0 = v2.getD k 0) :
    interval_writes_one row a b m1 v1 = interval_writes_one row a b m2 v2 := by
  unfold interval_writes_one
  rw [filter_range_le a b m1, filter_range_le a b m2, min_eq_right h1,
    min_eq_right h2]
  apply List.map_congr_left
  intro k hk
  rw [hv k (List.mem_range.mp hk)]

theorem interval_writes_det_cons (row : Nat) (a b : Int)
    (st lt : List Int) (maxLen : Nat) (v0 : List ℚ) (vrest : List (List ℚ)) :
    interval_writes_det row (a :: st) (b :: lt) maxLen (v0 :: vrest) =
      interval_writes_one row a b maxLen v0 ++
        interval_writes_det row st lt maxLen vrest := by
  unfold interval_writes_det
  simp [List.zip]

theorem scan_map_update_getD_formula (mapdata : List (List (List ℚ)))
    (npix_submap : Int) (global2local : List Int) (pixels : List Int)
    (weights : List (List ℚ)) (data_scale : ℚ) (k : Nat)
    (hk1 : k < pixels.length) (hk2 : k < weights.length) :
    (scan_map_update mapdata npix_submap global2local pixels weights
      data_scale).getD k 0 =
    (List.zipWith (· * ·)
      ((fun s q =>
        let row := jaxGetD (jaxGetD mapdata s []) q []
        if 0 ≤ q ∧ 0 ≤ s then row else row.map (fun _ => (0 : ℚ)))
        (if pixels.getD k 0 < 0 then -1
          else jaxGetD global2local ((pixels.getD k 0).fdiv npix_submap) 0)
        (if pixels.getD k 0 < 0 then -1
          else (pixels.getD k 0).fmod npix_submap))
      (weights.getD k [])).sum * data_scale := by
  have hg : k < (scan_map_gathered mapdata npix_submap global2local
      pixels).length := by
    rw [gathered_length]; omega
  have hz : k < (List.zipWith (fun row w =>
      (List.zipWith (· * ·) row w).sum)
      (scan_map_gathered mapdata npix_submap global2local pixels)
      weights).length := by
    rw [List.length_zipWith]; omega
  simp only [scan_map_update]
  rw [getD_map _ _ _ 0 _ hz, getD_zipWith _ _ _ k [] [] _ hg hk2,
    gathered_getD _ _ _ _ _ hk1, g2l_fst_getD _ _ _ _ hk1,
    g2l_snd_getD _ _ _ _ hk1]

theorem scan_map_inner_getD_congr (mapdata : List (List (List ℚ)))
    (npix_submap : Int) (global2local : List Int) (p1 p2 : List Int)
    (w1 w2 : List (List ℚ)) (d1 d2 : List ℚ) (data_scale : ℚ) (z s : Bool)
    (k : Nat) (hp1 : k < p1.length) (hp2 : k < p2.length)
    (hw1 : k < w1.length) (hw2 : k < w2.length) (hd1 : k < d1.length)
    (hd2 : k < d2.length) (hp : p1.getD k 0 = p2.getD k 0)
    (hw : w1.getD k [] = w2.getD k []) (hd : d1.getD k 0 = d2.getD k 0) :
    (scan_map_inner mapdata npix_submap global2local p1 w1 d1 data_scale
      z s).getD k 0 =
    (scan_map_inner mapdata npix_submap global2local p2 w2 d2 data_scale
      z s).getD k 0 := by
  have hu1 : k < (scan_map_update mapdata npix_submap global2local p1 w1
      data_scale).length := by
    rw [scan_map_update_length]; omega
  have hu2 : k < (scan_map_update mapdata npix_submap global2local p2 w2
      data_scale).length := by
    rw [scan_map_update_length]; omega
  rw [scan_map_inner_comb, scan_map_inner_comb,
    getD_zipWith _ _ _ k 0 0 _ hd1 hu1, getD_zipWith _ _ _ k 0 0 _ hd2 hu2,
    scan_map_update_getD_formula _ _ _ _ _ _ _ hp1 hw1,
    scan_map_update_getD_formula _ _ _ _ _ _ _ hp2 hw2, hp, hw, hd]

theorem apply_writes_append (dd : List (List ℚ))
    (ws1 ws2 : List ((Nat × Int) × ℚ)) :
    apply_writes dd (ws1 ++ ws2) = apply_writes (apply_writes dd ws1) ws2 :=
  List.foldl_append _ _ _ _

theorem intervals_get_single (data : List (List α)) (i0 : Int)
    (starts lasts : List Int) (maxLen : Nat) (d0 : α) :
    intervals_get data [i0] starts lasts maxLen d0 =
      [(List.zip starts lasts).map (fun sl =>
        (interval_indices sl.1 sl.2 maxLen).map (fun i =>
          jaxGetD (jaxGetD data i0 []) i d0))] := rfl

theorem intervals_set_single (dd : List (List ℚ)) (i0 : Int)
    (starts lasts : List Int) (maxLen : Nat) (vd : List (List ℚ)) :
    intervals_set dd [i0] starts lasts maxLen [vd] =
      apply_writes dd (interval_writes_det (jaxIndex dd.length i0) starts
        lasts maxLen vd) := by
  unfold intervals_set
  simp [List.zip]

theorem scan_map_interval_single_form (mapdata : List ℚ)
    (nmap npix_submap : Int) (global2local : List Int)
    (dd : List (List ℚ)) (di0 : Int) (pixels : List (List Int)) (pi0 : Int)
    (w : List (List (List ℚ))) (wi0 : Int) (starts lasts : List Int)
    (maxLen : Nat) (data_scale : ℚ) (z s : Bool)
    (m3 : List (List (List ℚ)))
    (hre : reshape_submaps mapdata npix_submap nmap = Except.ok m3) :
    scan_map_interval mapdata nmap npix_submap global2local dd [di0] pixels
      [pi0] (WeightsArg.w3 w [wi0]) starts lasts maxLen data_scale z s =
    Except.ok (apply_writes dd
      (interval_writes_det (jaxIndex dd.length di0) starts lasts maxLen
        (List.zipWith3 (fun pv wv ddv => scan_map_inner m3 npix_submap
          global2local pv wv ddv data_scale z s)
          ((List.zip starts lasts).map (fun sl =>
            (interval_indices sl.1 sl.2 maxLen).map (fun i =>
              jaxGetD (jaxGetD pixels pi0 []) i 0)))
          ((List.zip starts lasts).map (fun sl =>
            (interval_indices sl.1 sl.2 maxLen).map (fun i =>
              jaxGetD (jaxGetD w wi0 []) i [])))
          ((List.zip starts lasts).map (fun sl =>
            (interval_indices sl.1 sl.2 maxLen).map (fun i =>
              jaxGetD (jaxGetD dd di0 []) i 0)))))) := by
  rw [scan_map_interval_w3_eq mapdata nmap npix_submap global2local dd [di0]
    pixels [pi0] w [wi0] starts lasts maxLen data_scale z s m3 hre
    (by simp [vmap_sizes_ok])]
  rw [intervals_get_single, intervals_get_single, intervals_get_single]
  rw [show List.zipWith3 (fun pd wd ddp => List.zipWith3 (fun pv wv ddv =>
      scan_map_inner m3 npix_submap global2local pv wv ddv data_scale z s)
      pd wd ddp)
      [(List.zip starts lasts).map (fun sl =>
        (interval_indices sl.1 sl.2 maxLen).map (fun i =>
          jaxGetD (jaxGetD pixels pi0 []) i 0))]
      [(List.zip starts lasts).map (fun sl =>
        (interval_indices sl.1 sl.2 maxLen).map (fun i =>
          jaxGetD (jaxGetD w wi0 []) i []))]
      [(List.zip starts lasts).map (fun sl =>
        (interval_indices sl.1 sl.2 maxLen).map (fun i =>
          jaxGetD (jaxGetD dd di0 []) i 0))] =
      [List.zipWith3 (fun pv wv ddv => scan_map_inner m3 npix_submap
        global2local pv wv ddv data_scale z s)
        ((List.zip starts lasts).map (fun sl =>
          (interval_indices sl.1 sl.2 maxLen).map (fun i =>
            jaxGetD (jaxGetD pixels pi0 []) i 0)))
        ((List.zip starts lasts).map (fun sl =>
          (interval_indices sl.1 sl.2 maxLen).map (fun i =>
            jaxGetD (jaxGetD w wi0 []) i [])))
        ((List.zip starts lasts).map (fun sl =>
          (interval_indices sl.1 sl.2 maxLen).map (fun i =>
            jaxGetD (jaxGetD dd di0 []) i 0)))] from rfl]
  rw [intervals_set_single]

theorem interval_writes_one_pos (row : Nat) (a b : Int) (m : Nat)
    (v : List ℚ) :
    ∀ wr ∈ interval_writes_one row a b m v,
      wr.1.1 = row ∧ a ≤ wr.1.2 ∧ wr.1.2 ≤ b := by
  intro wr hw
  simp only [interval_writes_one, List.mem_map, List.mem_filter,
    List.mem_range] at hw
  obtain ⟨k, ⟨hk, hreal⟩, rfl⟩ := hw
  refine ⟨rfl, ?_, ?_⟩
  · show a ≤ a + (k : Int)
    omega
  · show a + (k : Int) ≤ b
    simpa using hreal

theorem jaxGetD_entry_unchanged (dd : List (List ℚ)) (di0 : Int)
    (ws : List ((Nat × Int) × ℚ)) (i : Int) (hdd : 0 < dd.length)
    (h0 : 0 ≤ i) (hi : i < (rowLen dd (jaxIndex dd.length di0) : Int))
    (hno : ∀ wr ∈ ws, wr.1 ≠ (jaxIndex dd.length di0, i)) :
    jaxGetD (jaxGetD (apply_writes dd ws) di0 []) i 0 =
      jaxGetD (jaxGetD dd di0 []) i 0 := by
  rw [jaxGetD_row dd _ hdd,
    jaxGetD_row (apply_writes dd ws) _ (by rw [length_apply_writes]; omega),
    length_apply_writes]
  rw [jaxGetD_of_bounds _ _ _ h0 (by
    have := rowLen_apply_writes ws dd (jaxIndex dd.length di0)
    unfold rowLen at this
    rw [this]
    exact_mod_cast hi)]
  rw [jaxGetD_of_bounds _ _ _ h0 (by exact_mod_cast hi)]
  exact getD2_apply_writes_nomatch ws dd _ _ (by
    intro wr hwr
    have := hno wr hwr
    rwa [show ((i.toNat : Int)) = i by omega])

theorem padded_row_congr (row1 row2 : List ℚ) (s e : Int) (maxLen : Nat)
    (hse : s ≤ e)
    (h : ∀ i : Int, s ≤ i → i ≤ e → jaxGetD row1 i 0 = jaxGetD row2 i 0) :
    (interval_indices s e maxLen).map (fun i => jaxGetD row1 i 0) =
      (interval_indices s e maxLen).map (fun i => jaxGetD row2 i 0) := by
  apply List.map_congr_left
  intro i hi
  simp only [interval_indices, List.mem_map, List.mem_range] at hi
  obtain ⟨k, hk, rfl⟩ := hi
  exact h _ (by omega) (by omega)

theorem zipWith3_cons (f : α → β → γ → δ) (a : α) (b : β) (c : γ)
    (l1 : List α) (l2 : List β) (l3 : List γ) :
    List.zipWith3 f (a :: l1) (b :: l2) (c :: l3) =
      f a b c :: List.zipWith3 f l1 l2 l3 := rfl

theorem padded_getD (row : List α) (d0 : α) (s e : Int) (m k : Nat)
    (hk : k < m) :
    ((interval_indices s e m).map (fun i => jaxGetD row i d0)).getD k d0 =
      jaxGetD row (min (s + (k : Int)) e) d0 := by
  rw [getD_map _ _ _ 0 _ (by rw [interval_indices_length]; omega),
    interval_indices_getD _ _ _ _ hk]

theorem scan_map_interval_one_form (mapdata : List ℚ)
    (nmap npix_submap : Int) (global2local : List Int) (dd : List (List ℚ))
    (di0 : Int) (pixels : List (List Int)) (pi0 : Int)
    (w : List (List (List ℚ))) (wi0 : Int) (a b : Int) (m : Nat)
    (data_scale : ℚ) (z s : Bool) (m3 : List (List (List ℚ)))
    (hre : reshape_submaps mapdata npix_submap nmap = Except.ok m3) :
    scan_map_interval mapdata nmap npix_submap global2local dd [di0] pixels
      [pi0] (WeightsArg.w3 w [wi0]) [a] [b] m data_scale z s =
    Except.ok (apply_writes dd
      (interval_writes_one (jaxIndex dd.length di0) a b m
        (scan_map_inner m3 npix_submap global2local
          ((interval_indices a b m).map (fun i =>
            jaxGetD (jaxGetD pixels pi0 []) i 0))
          ((interval_indices a b m).map (fun i =>
            jaxGetD (jaxGetD w wi0 []) i []))
          ((interval_indices a b m).map (fun i =>
            jaxGetD (jaxGetD dd di0 []) i 0)) data_scale z s))) := by
  rw [scan_map_interval_single_form mapdata nmap npix_submap global2local dd
    di0 pixels pi0 w wi0 [a] [b] m data_scale z s m3 hre]
  refine congrArg Except.ok ?_
  refine congrArg (apply_writes dd) ?_
  simp only [List.zip_cons_cons, List.zip_nil_right, List.map_cons,
    List.map_nil, zipWith3_cons]
  rw [show List.zipWith3 (fun pv wv ddv => scan_map_inner m3 npix_submap
    global2local pv wv ddv data_scale z s) ([] : List (List Int)) [] [] =
    [] from rfl]
  unfold interval_writes_det
  simp [List.zip]

theorem scan_map_interval_cons_form (mapdata : List ℚ)
    (nmap npix_submap : Int) (global2local : List Int) (dd : List (List ℚ))
    (di0 : Int) (pixels : List (List Int)) (pi0 : Int)
    (w : List (List (List ℚ))) (wi0 : Int) (a b : Int)
    (st lt : List Int) (maxLen : Nat) (data_scale : ℚ) (z s : Bool)
    (m3 : List (List (List ℚ)))
    (hre : reshape_submaps mapdata npix_submap nmap = Except.ok m3) :
    scan_map_interval mapdata nmap npix_submap global2local dd [di0] pixels
      [pi0] (WeightsArg.w3 w [wi0]) (a :: st) (b :: lt) maxLen data_scale
      z s =
    Except.ok (apply_writes
      (apply_writes dd (interval_writes_one (jaxIndex dd.length di0) a b
        maxLen (scan_map_inner m3 npix_submap global2local
          ((interval_indices a b maxLen).map (fun i =>
            jaxGetD (jaxGetD pixels pi0 []) i 0))
          ((interval_indices a b maxLen).map (fun i =>
            jaxGetD (jaxGetD w wi0 []) i []))
          ((interval_indices a b maxLen).map (fun i =>
            jaxGetD (jaxGetD dd di0 []) i 0)) data_scale z s)))
      (interval_writes_det (jaxIndex dd.length di0) st lt maxLen
        (List.zipWith3 (fun pv wv ddv => scan_map_inner m3 npix_submap
          global2local pv wv ddv data_scale z s)
          ((List.zip st lt).map (fun sl =>
            (interval_indices sl.1 sl.2 maxLen).map (fun i =>
              jaxGetD (jaxGetD pixels pi0 []) i 0)))
          ((List.zip st lt).map (fun sl =>
            (interval_indices sl.1 sl.2 maxLen).map (fun i =>
              jaxGetD (jaxGetD w wi0 []) i [])))
          ((List.zip st lt).map (fun sl =>
            (interval_indices sl.1 sl.2 maxLen).map (fun i =>
              jaxGetD (jaxGetD dd di0 []) i 0)))))) := by
  rw [scan_map_interval_single_form mapdata nmap npix_submap global2local dd
    di0 pixels pi0 w wi0 (a :: st) (b :: lt) maxLen data_scale z s m3 hre]
  refine congrArg Except.ok ?_
  rw [show List.zip (a :: st) (b :: lt) = (a, b) :: List.zip st lt from rfl]
  simp only [List.map_cons, zipWith3_cons]
  rw [interval_writes_det_cons, apply_writes_append]

theorem scan_intervals_one_by_one_cons (mapdata : List ℚ)
    (nmap npix_submap : Int) (global2local : List Int) (dd : List (List ℚ))
    (ddi : List Int) (pixels : List (List Int)) (pindex : List Int)
    (weights : WeightsArg) (a b : Int) (st lt : List Int) (data_scale : ℚ)
    (z s : Bool) :
    scan_intervals_one_by_one mapdata nmap npix_submap global2local dd ddi
      pixels pindex weights (a :: st) (b :: lt) data_scale z s =
    (scan_map_interval mapdata nmap npix_submap global2local dd ddi pixels
      pindex weights [a] [b] (compute_max_intervals_length [a] [b])
      data_scale z s) >>= (fun dd2 =>
        scan_intervals_one_by_one mapdata nmap npix_submap global2local dd2
          ddi pixels pindex weights st lt data_scale z s) := rfl

theorem one_by_one_eq_batch (mapdata : List ℚ) (nmap npix_submap : Int)
    (global2local : List Int) (di0 pi0 wi0 : Int)
    (pixels : List (List Int)) (w : List (List (List ℚ))) (maxLen : Nat)
    (data_scale : ℚ) (z s : Bool) (m3 : List (List (List ℚ)))
    (hre : reshape_submaps mapdata npix_submap nmap = Except.ok m3) :
    ∀ (starts lasts : List Int) (dd : List (List ℚ)),
      starts.length = lasts.length →
      (∀ v, v < starts.length → 0 ≤ starts.getD v 0 ∧
        starts.getD v 0 ≤ lasts.getD v 0 ∧
        lasts.getD v 0 < (rowLen dd (jaxIndex dd.length di0) : Int)) →
      (∀ u v, u < v → v < starts.length →
        lasts.getD u 0 < starts.getD v 0) →
      (∀ v, v < starts.length →
        (lasts.getD v 0 + 1 - starts.getD v 0).toNat ≤ maxLen) →
      scan_intervals_one_by_one mapdata nmap npix_submap global2local dd
        [di0] pixels [pi0] (WeightsArg.w3 w [wi0]) starts lasts data_scale
        z s =
      scan_map_interval mapdata nmap npix_submap global2local dd [di0]
        pixels [pi0] (WeightsArg.w3 w [wi0]) starts lasts maxLen data_scale
        z s := by
  intro starts
  induction starts with
  | nil =>
      intro lasts dd _ _ _ _
      rw [scan_map_interval_single_form mapdata nmap npix_submap global2local
        dd di0 pixels pi0 w wi0 [] lasts maxLen data_scale z s m3 hre]
      rfl
  | cons a st ih =>
      intro lasts dd hlen hwf hsorted hmax
      cases lasts with
      | nil => simp at hlen
      | cons b lt =>
        have h0 := hwf 0 (by simp)
        simp only [List.getD_cons_zero] at h0
        have hddpos : 0 < dd.length := by
          rcases dd with _ | ⟨r, dd'⟩
          · exfalso
            simp only [rowLen, List.getD_nil, List.length_nil] at h0
            omega
          · simp
        have hml : compute_max_intervals_length [a] [b] =
            (b + 1 - a).toNat := by
          simp [compute_max_intervals_length, List.zip]
        have hmax0 : (b + 1 - a).toNat ≤ maxLen := by
          have := hmax 0 (by simp)
          simpa using this
        have hlen' : st.length = lt.length := by simpa using hlen
        have hsorted' : ∀ u v, u < v → v < st.length →
            lt.getD u 0 < st.getD v 0 := by
          intro u v huv hv
          have := hsorted (u + 1) (v + 1) (by omega)
            (by simp only [List.length_cons]; omega)
          simpa using this
        have hmax' : ∀ v, v < st.length →
            (lt.getD v 0 + 1 - st.getD v 0).toNat ≤ maxLen := by
          intro v hv
          have := hmax (v + 1) (by simp only [List.length_cons]; omega)
          simpa using this
        have hwf' : ∀ ws : List ((Nat × Int) × ℚ), ∀ v, v < st.length →
            0 ≤ st.getD v 0 ∧ st.getD v 0 ≤ lt.getD v 0 ∧
            lt.getD v 0 < (rowLen (apply_writes dd ws)
              (jaxIndex (apply_writes dd ws).length di0) : Int) := by
          intro ws v hv
          rw [length_apply_writes, rowLen_apply_writes]
          have := hwf (v + 1) (by simp only [List.length_cons]; omega)
          simpa using this
        rw [scan_intervals_one_by_one_cons, hml,
          scan_map_interval_one_form mapdata nmap npix_submap global2local
            dd di0 pixels pi0 w wi0 a b ((b + 1 - a).toNat) data_scale z s
            m3 hre]
        simp only [except_ok_bind]
        rw [ih lt _ hlen' (hwf' _) hsorted' hmax']
        rw [scan_map_interval_single_form mapdata nmap npix_submap
          global2local _ di0 pixels pi0 w wi0 st lt maxLen data_scale z s
          m3 hre,
          scan_map_interval_cons_form mapdata nmap npix_submap global2local
            dd di0 pixels pi0 w wi0 a b st lt maxLen data_scale z s m3 hre]
        refine congrArg Except.ok ?_
        rw [length_apply_writes]
        have hb1 : interval_writes_one (jaxIndex dd.length di0) a b
            ((b + 1 - a).toNat)
            (scan_map_inner m3 npix_submap global2local
              ((interval_indices a b ((b + 1 - a).toNat)).map (fun i =>
                jaxGetD (jaxGetD pixels pi0 []) i 0))
              ((interval_indices a b ((b + 1 - a).toNat)).map (fun i =>
                jaxGetD (jaxGetD w wi0 []) i []))
              ((interval_indices a b ((b + 1 - a).toNat)).map (fun i =>
                jaxGetD (jaxGetD dd di0 []) i 0)) data_scale z s) =
          interval_writes_one (jaxIndex dd.length di0) a b maxLen
            (scan_map_inner m3 npix_submap global2local
              ((interval_indices a b maxLen).map (fun i =>
                jaxGetD (jaxGetD pixels pi0 []) i 0))
              ((interval_indices a b maxLen).map (fun i =>
                jaxGetD (jaxGetD w wi0 []) i []))
              ((interval_indices a b maxLen).map (fun i =>
                jaxGetD (jaxGetD dd di0 []) i 0)) data_scale z s) := by
          apply interval_writes_one_congr _ a b _ _ _ _ (le_refl _) hmax0
          intro k hk
          apply scan_map_inner_getD_congr
          · rw [List.length_map, interval_indices_length]; exact hk
          · rw [List.length_map, interval_indices_length]; omega
          · rw [List.length_map, interval_indices_length]; exact hk
          · rw [List.length_map, interval_indices_length]; omega
          · rw [List.length_map, interval_indices_length]; exact hk
          · rw [List.length_map, interval_indices_length]; omega
          · rw [padded_getD _ _ a b _ k hk, padded_getD _ _ a b _ k (by omega)]
          · rw [padded_getD _ _ a b _ k hk, padded_getD _ _ a b _ k (by omega)]
          · rw [padded_getD _ _ a b _ k hk, padded_getD _ _ a b _ k (by omega)]
        rw [hb1]
        have hdd3 : (List.zip st lt).map (fun sl =>
            (interval_indices sl.1 sl.2 maxLen).map (fun i =>
              jaxGetD (jaxGetD (apply_writes dd
                (interval_writes_one (jaxIndex dd.length di0) a b maxLen
                  (scan_map_inner m3 npix_submap global2local
                    ((interval_indices a b maxLen).map (fun i =>
                      jaxGetD (jaxGetD pixels pi0 []) i 0))
                    ((interval_indices a b maxLen).map (fun i =>
                      jaxGetD (jaxGetD w wi0 []) i []))
                    ((interval_indices a b maxLen).map (fun i =>
                      jaxGetD (jaxGetD dd di0 []) i 0)) data_scale z s)))
                di0 []) i 0)) =
          (List.zip st lt).map (fun sl =>
            (interval_indices sl.1 sl.2 maxLen).map (fun i =>
              jaxGetD (jaxGetD dd di0 []) i 0)) := by
          apply ext_getD ([] : List ℚ)
          · simp
          · intro v hv
            have hv' : v < (List.zip st lt).length := by simpa using hv
            have hvs : v < st.length := by
              rw [List.length_zip] at hv'; omega
            have hvl : v < lt.length := by
              rw [List.length_zip] at hv'; omega
            rw [getD_map _ _ v ((0 : Int), (0 : Int)) ([] : List ℚ) hv',
              getD_map _ _ v ((0 : Int), (0 : Int)) ([] : List ℚ) hv']
            have hzv : (List.zip st lt).getD v (0, 0) =
                (st.getD v 0, lt.getD v 0) :=
              getD_zipWith Prod.mk st lt v 0 0 (0, 0) hvs hvl
            rw [hzv]
            show (interval_indices (st.getD v 0) (lt.getD v 0) maxLen).map
                (fun i => jaxGetD (jaxGetD (apply_writes dd
                  (interval_writes_one (jaxIndex dd.length di0) a b maxLen
                    (scan_map_inner m3 npix_submap global2local
                      ((interval_indices a b maxLen).map (fun i =>
                        jaxGetD (jaxGetD pixels pi0 []) i 0))
                      ((interval_indices a b maxLen).map (fun i =>
                        jaxGetD (jaxGetD w wi0 []) i []))
                      ((interval_indices a b maxLen).map (fun i =>
                        jaxGetD (jaxGetD dd di0 []) i 0)) data_scale z s)))
                  di0 []) i 0) =
              (interval_indices (st.getD v 0) (lt.getD v 0) maxLen).map
                (fun i => jaxGetD (jaxGetD dd di0 []) i 0)
            have h1 := hwf (v + 1) (by simp only [List.length_cons]; omega)
            simp only [List.getD_cons_succ] at h1
            apply padded_row_congr _ _ _ _ _ h1.2.1
            intro i hi1 hi2
            apply jaxGetD_entry_unchanged dd di0 _ i hddpos (by omega)
              (by omega)
            intro wr hwr
            have hpos := interval_writes_one_pos _ a b maxLen _ wr hwr
            have hbv : b < st.getD v 0 := by
              have := hsorted 0 (v + 1) (by omega)
                (by simp only [List.length_cons]; omega)
              simpa using this
            intro heq
            have h2 : wr.1.2 = i := congrArg Prod.snd heq
            omega
        rw [hdd3]

theorem broadcast_ok_length (a : List (List ℚ)) (b : List ℚ)
    (p : List (List ℚ)) (h : broadcast_mul_2d_1d a b = Except.ok p) :
    p.length = a.length := by
  simp only [broadcast_mul_2d_1d] at h
  split_ifs at h
  · injection h with h2; rw [← h2, List.length_map]
  · injection h with h2; rw [← h2, List.length_map]
  · injection h with h2; rw [← h2, List.length_map]

theorem scan_map_inner_w1_bind (m3 : List (List (List ℚ)))
    (npix_submap : Int) (global2local : List Int) (pv : List Int)
    (wv ddv : List ℚ) (data_scale : ℚ) (s : Bool) :
    scan_map_inner_w1 m3 npix_submap global2local pv wv ddv data_scale
      false s =
    (broadcast_mul_2d_1d (scan_map_gathered m3 npix_submap global2local pv)
      wv) >>= (fun prod => Except.ok (if s then
        List.zipWith (· - ·) ddv
          ((prod.map (fun row => row.sum)).map (· * data_scale))
      else
        List.zipWith (· + ·) ddv
          ((prod.map (fun row => row.sum)).map (· * data_scale)))) := rfl

theorem scan_map_inner_w1_char (m3 : List (List (List ℚ)))
    (npix_submap : Int) (global2local : List Int) (pv : List Int)
    (wv ddv : List ℚ) (data_scale : ℚ) (s : Bool) (p : List (List ℚ))
    (hb : broadcast_mul_2d_1d (scan_map_gathered m3 npix_submap global2local
      pv) wv = Except.ok p) :
    scan_map_inner_w1 m3 npix_submap global2local pv wv ddv data_scale
      false s = Except.ok (if s then
        List.zipWith (· - ·) ddv
          (update_w1 m3 npix_submap global2local pv wv data_scale)
      else
        List.zipWith (· + ·) ddv
          (update_w1 m3 npix_submap global2local pv wv data_scale)) := by
  rw [scan_map_inner_w1_bind, hb, except_ok_bind]
  unfold update_w1
  rw [hb]

theorem scan_map_inner_w1_ok_broadcast (m3 : List (List (List ℚ)))
    (npix_submap : Int) (global2local : List Int) (pv : List Int)
    (wv ddv : List ℚ) (data_scale : ℚ) (z s : Bool) (r : List ℚ)
    (h : scan_map_inner_w1 m3 npix_submap global2local pv wv ddv data_scale
      z s = Except.ok r) :
    ∃ p, broadcast_mul_2d_1d (scan_map_gathered m3 npix_submap global2local
      pv) wv = Except.ok p := by
  unfold scan_map_inner_w1 at h
  obtain ⟨p, hp, _⟩ := except_bind_ok h
  exact ⟨p, hp⟩

theorem update_w1_length (m3 : List (List (List ℚ))) (npix_submap : Int)
    (global2local : List Int) (pv : List Int) (wv : List ℚ)
    (data_scale : ℚ) (p : List (List ℚ))
    (hb : broadcast_mul_2d_1d (scan_map_gathered m3 npix_submap global2local
      pv) wv = Except.ok p) :
    (update_w1 m3 npix_submap global2local pv wv data_scale).length =
      pv.length := by
  unfold update_w1
  rw [hb]
  show ((p.map (fun row => row.sum)).map (· * data_scale)).length = pv.length
  rw [List.length_map, List.length_map, broadcast_ok_length _ _ _ hb,
    gathered_length]

theorem mapM_ok_length {β' : Type} (f : α → Except String β') :
    ∀ (l : List α) (r : List β'), l.mapM f = Except.ok r →
      r.length = l.length := by
  intro l
  induction l with
  | nil =>
      intro r h
      injection h with h2
      rw [← h2]
      rfl
  | cons a l ih =>
      intro r h
      rw [List.mapM_cons] at h
      obtain ⟨b, hb, h⟩ := except_bind_ok h
      obtain ⟨bs, hbs, h⟩ := except_bind_ok h
      injection h with h2
      rw [← h2, List.length_cons, List.length_cons, ih bs hbs]

theorem mapM_ok_map {β' : Type} (f : α → Except String β') (g : α → β') :
    ∀ l : List α, (∀ x ∈ l, f x = Except.ok (g x)) →
      l.mapM f = Except.ok (l.map g) := by
  intro l
  induction l with
  | nil => intro _; rfl
  | cons a l ih =>
      intro h
      rw [List.mapM_cons, h a (List.mem_cons_self a l),
        ih (fun x hx => h x (List.mem_cons_of_mem a hx))]
      rfl

theorem mapM_ok_getD {β' : Type} (f : α → Except String β') (d : α)
    (d' : β') : ∀ (l : List α) (r : List β'), l.mapM f = Except.ok r →
      ∀ i, i < l.length → f (l.getD i d) = Except.ok (r.getD i d') := by
  intro l
  induction l with
  | nil => intro r h i hi; simp at hi
  | cons a l ih =>
      intro r h i hi
      rw [List.mapM_cons] at h
      obtain ⟨b, hb, h⟩ := except_bind_ok h
      obtain ⟨bs, hbs, h⟩ := except_bind_ok h
      injection h with h2
      rw [← h2]
      cases i with
      | zero => simpa using hb
      | succ i => simpa using ih bs hbs i (by simpa using hi)

theorem mem_zipWith3_mk (d1 : α) (d2 : β) (d3 : γ) :
    ∀ (l1 : List α) (l2 : List β) (l3 : List γ)
      (x : α × β × γ), x ∈ List.zipWith3 (fun a b c => (a, b, c)) l1 l2 l3 →
      ∃ i, i < l1.length ∧ i < l2.length ∧ i < l3.length ∧
        x = (l1.getD i d1, l2.getD i d2, l3.getD i d3) := by
  intro l1
  induction l1 with
  | nil => intro l2 l3 x hx; simp [List.zipWith3] at hx
  | cons a l1 ih =>
      intro l2 l3 x hx
      cases l2 with
      | nil => simp [List.zipWith3] at hx
      | cons b l2 =>
          cases l3 with
          | nil => simp [List.zipWith3] at hx
          | cons c l3 =>
              rw [zipWith3_cons] at hx
              rcases List.mem_cons.mp hx with hx | hx
              · refine ⟨0, by simp, by simp, by simp, ?_⟩
                simpa using hx
              · obtain ⟨i, hi1, hi2, hi3, hx⟩ := ih l2 l3 x hx
                refine ⟨i + 1, by simpa using hi1, by simpa using hi2,
                  by simpa using hi3, ?_⟩
                simpa using hx

theorem scan_map_interval_nw_eq (mapdata : List ℚ) (nmap npix_submap : Int)
    (global2local : List Int) (det_data : List (List ℚ))
    (det_data_index : List Int) (pixels : List (List Int))
    (pixels_index : List Int) (starts lasts : List Int) (maxLen : Nat)
    (data_scale : ℚ) (z s : Bool) (m3 : List (List (List ℚ)))
    (hre : reshape_submaps mapdata npix_submap nmap = Except.ok m3)
    (hvm : vmap_sizes_ok WeightsArg.noweights pixels_index det_data_index
      = true) :
    scan_map_interval mapdata nmap npix_submap global2local det_data
      det_data_index pixels pixels_index WeightsArg.noweights starts lasts
      maxLen data_scale z s =
    ((List.zipWith3 (fun pd wd ddp => (pd, wd, ddp))
        (intervals_get pixels pixels_index starts lasts maxLen 0)
        ((intervals_get pixels pixels_index starts lasts maxLen 0).map
          (fun pd => pd.map (fun pv => pv.map (fun _ => (1 : ℚ)))))
        (intervals_get det_data det_data_index starts lasts maxLen 0)).mapM
      (fun x => (List.zipWith3 (fun pv wv ddv => (pv, wv, ddv))
          x.1 x.2.1 x.2.2).mapM
        (fun y => scan_map_inner_w1 m3 npix_submap global2local y.1 y.2.1
          y.2.2 data_scale z s))) >>= (fun new =>
      Except.ok (intervals_set det_data det_data_index starts lasts maxLen
        new)) := by
  unfold scan_map_interval
  rw [hre, except_ok_bind, if_pos hvm]
  rfl

theorem scan_map_interval_w2_eq (mapdata : List ℚ) (nmap npix_submap : Int)
    (global2local : List Int) (det_data : List (List ℚ))
    (det_data_index : List Int) (pixels : List (List Int))
    (pixels_index : List Int) (w : List (List ℚ)) (windex : List Int)
    (starts lasts : List Int) (maxLen : Nat)
    (data_scale : ℚ) (z s : Bool) (m3 : List (List (List ℚ)))
    (hre : reshape_submaps mapdata npix_submap nmap = Except.ok m3)
    (hvm : vmap_sizes_ok (WeightsArg.w2 w windex) pixels_index
      det_data_index = true) :
    scan_map_interval mapdata nmap npix_submap global2local det_data
      det_data_index pixels pixels_index (WeightsArg.w2 w windex) starts
      lasts maxLen data_scale z s =
    ((List.zipWith3 (fun pd wd ddp => (pd, wd, ddp))
        (intervals_get pixels pixels_index starts lasts maxLen 0)
        (intervals_get w windex starts lasts maxLen (0 : ℚ))
        (intervals_get det_data det_data_index starts lasts maxLen 0)).mapM
      (fun x => (List.zipWith3 (fun pv wv ddv => (pv, wv, ddv))
          x.1 x.2.1 x.2.2).mapM
        (fun y => scan_map_inner_w1 m3 npix_submap global2local y.1 y.2.1
          y.2.2 data_scale z s))) >>= (fun new =>
      Except.ok (intervals_set det_data det_data_index starts lasts maxLen
        new)) := by
  unfold scan_map_interval
  rw [hre, except_ok_bind, if_pos hvm]
  rfl

theorem scan_map_w1_roundtrip_core (m3 : List (List (List ℚ)))
    (npix_submap : Int) (global2local : List Int)
    (det_data : List (List ℚ)) (ddi : List Int)
    (P : List (List (List Int))) (W : List (List (List ℚ)))
    (starts lasts : List Int) (maxLen : Nat) (data_scale : ℚ)
    (new1 : List (List (List ℚ)))
    (hPlen : P.length = ddi.length) (hWlen : W.length = ddi.length)
    (hProw : ∀ d, d < ddi.length →
      (P.getD d []).length = min starts.length lasts.length)
    (hWrow : ∀ d, d < ddi.length →
      (W.getD d []).length = min starts.length lasts.length)
    (hPk : ∀ d v, d < ddi.length → v < min starts.length lasts.length →
      ((P.getD d []).getD v []).length = maxLen)
    (h1 : (List.zipWith3 (fun pd wd ddp => (pd, wd, ddp)) P W
        (intervals_get det_data ddi starts lasts maxLen 0)).mapM
      (fun x => (List.zipWith3 (fun pv wv ddv => (pv, wv, ddv))
          x.1 x.2.1 x.2.2).mapM
        (fun y => scan_map_inner_w1 m3 npix_submap global2local y.1 y.2.1
          y.2.2 data_scale false false)) = Except.ok new1) :
    ∃ new2,
      (List.zipWith3 (fun pd wd ddp => (pd, wd, ddp)) P W
          (intervals_get (intervals_set det_data ddi starts lasts maxLen
            new1) ddi starts lasts maxLen 0)).mapM
        (fun x => (List.zipWith3 (fun pv wv ddv => (pv, wv, ddv))
            x.1 x.2.1 x.2.2).mapM
          (fun y => scan_map_inner_w1 m3 npix_submap global2local y.1 y.2.1
            y.2.2 data_scale false true)) = Except.ok new2 ∧
      intervals_set (intervals_set det_data ddi starts lasts maxLen new1)
        ddi starts lasts maxLen new2 = det_data := by
  have hO1len : (List.zipWith3 (fun pd wd ddp => (pd, wd, ddp)) P W
      (intervals_get det_data ddi starts lasts maxLen 0)).length =
      ddi.length := by
    rw [length_zipWith3, intervals_get_length, hPlen, hWlen]
    omega
  have hrow1 : ∀ d, d < ddi.length →
      (List.zipWith3 (fun pv wv ddv => (pv, wv, ddv))
        (P.getD d []) (W.getD d [])
        ((intervals_get det_data ddi starts lasts maxLen 0).getD d
          [])).mapM
        (fun y => scan_map_inner_w1 m3 npix_submap global2local y.1 y.2.1
          y.2.2 data_scale false false) = Except.ok (new1.getD d []) := by
    intro d hd
    have h2 := mapM_ok_getD _ (([] : List (List Int)), ([] : List (List ℚ)),
      ([] : List (List ℚ))) [] _ _ h1 d (by rw [hO1len]; exact hd)
    rwa [getD_zipWith3 _ _ _ _ d [] [] [] _ (by rw [hPlen]; exact hd)
      (by rw [hWlen]; exact hd)
      (by rw [intervals_get_length]; exact hd)] at h2
  have hI1len : ∀ d, d < ddi.length →
      (List.zipWith3 (fun pv wv ddv => (pv, wv, ddv))
        (P.getD d []) (W.getD d [])
        ((intervals_get det_data ddi starts lasts maxLen 0).getD d
          [])).length = min starts.length lasts.length := by
    intro d hd
    rw [length_zipWith3, hProw d hd, hWrow d hd,
      intervals_get_getD_length _ _ _ _ _ _ _ hd]
    omega
  have hin1 : ∀ d v, d < ddi.length → v < min starts.length lasts.length →
      scan_map_inner_w1 m3 npix_submap global2local
        ((P.getD d []).getD v []) ((W.getD d []).getD v [])
        (((intervals_get det_data ddi starts lasts maxLen 0).getD d
          []).getD v []) data_scale false false =
        Except.ok ((new1.getD d []).getD v []) := by
    intro d v hd hv
    have h2 := mapM_ok_getD _ (([] : List Int), ([] : List ℚ),
      ([] : List ℚ)) [] _ _ (hrow1 d hd) v (by rw [hI1len d hd]; exact hv)
    rwa [getD_zipWith3 _ _ _ _ v [] [] [] _ (by rw [hProw d hd]; exact hv)
      (by rw [hWrow d hd]; exact hv)
      (by rw [intervals_get_getD_length _ _ _ _ _ _ _ hd]; exact hv)] at h2
  have hbroad : ∀ d v, d < ddi.length → v < min starts.length lasts.length →
      ∃ p, broadcast_mul_2d_1d (scan_map_gathered m3 npix_submap
        global2local ((P.getD d []).getD v []))
        ((W.getD d []).getD v []) = Except.ok p := by
    intro d v hd hv
    exact scan_map_inner_w1_ok_broadcast _ _ _ _ _ _ _ _ _ _
      (hin1 d v hd hv)
  have hval1 : ∀ d v, d < ddi.length → v < min starts.length lasts.length →
      (new1.getD d []).getD v [] = List.zipWith (· + ·)
        (((intervals_get det_data ddi starts lasts maxLen 0).getD d
          []).getD v [])
        (update_w1 m3 npix_submap global2local ((P.getD d []).getD v [])
          ((W.getD d []).getD v []) data_scale) := by
    intro d v hd hv
    obtain ⟨p, hp⟩ := hbroad d v hd hv
    have h2 := (hin1 d v hd hv).symm.trans
      (scan_map_inner_w1_char m3 npix_submap global2local _ _ _ data_scale
        false p hp)
    have h3 := Except.ok.inj h2
    simpa using h3
  have hd1len : (intervals_set det_data ddi starts lasts maxLen
      new1).length = det_data.length := by
    unfold intervals_set
    exact length_apply_writes _ _
  have hd1row : ∀ r, rowLen (intervals_set det_data ddi starts lasts maxLen
      new1) r = rowLen det_data r := by
    intro r
    unfold intervals_set
    exact rowLen_apply_writes _ _ _
  have hpass2ex : ∃ n2, (List.zipWith3 (fun pd wd ddp => (pd, wd, ddp)) P W
      (intervals_get (intervals_set det_data ddi starts lasts maxLen
        new1) ddi starts lasts maxLen 0)).mapM
      (fun x => (List.zipWith3 (fun pv wv ddv => (pv, wv, ddv))
          x.1 x.2.1 x.2.2).mapM
        (fun y => scan_map_inner_w1 m3 npix_submap global2local y.1 y.2.1
          y.2.2 data_scale false true)) = Except.ok n2 := by
    refine ⟨_, mapM_ok_map _ (fun x =>
      (List.zipWith3 (fun pv wv ddv => (pv, wv, ddv)) x.1 x.2.1 x.2.2).map
        (fun y => List.zipWith (· - ·) y.2.2
          (update_w1 m3 npix_submap global2local y.1 y.2.1 data_scale))) _
      ?_⟩
    intro x hx
    obtain ⟨d, hd1, hd2, hd3, hxe⟩ := mem_zipWith3_mk [] [] [] _ _ _ x hx
    subst hxe
    apply mapM_ok_map
    intro y hy
    obtain ⟨v, hv1, hv2, hv3, hye⟩ := mem_zipWith3_mk [] [] [] _ _ _ y hy
    subst hye
    have hd' : d < ddi.length := by rw [← hPlen]; exact hd1
    have hv' : v < min starts.length lasts.length := by
      rw [← hProw d hd']
      simpa using hv1
    obtain ⟨p, hp⟩ := hbroad d v hd' hv'
    have h2 := scan_map_inner_w1_char m3 npix_submap global2local
      ((P.getD d []).getD v []) ((W.getD d []).getD v [])
      (((intervals_get (intervals_set det_data ddi starts lasts maxLen
        new1) ddi starts lasts maxLen 0).getD d []).getD v []) data_scale
      true p hp
    simpa using h2
  obtain ⟨new2, hpass2⟩ := hpass2ex
  refine ⟨new2, hpass2, ?_⟩
  have hO2len : (List.zipWith3 (fun pd wd ddp => (pd, wd, ddp)) P W
      (intervals_get (intervals_set det_data ddi starts lasts maxLen new1)
        ddi starts lasts maxLen 0)).length = ddi.length := by
    rw [length_zipWith3, intervals_get_length, hPlen, hWlen]
    omega
  have hrow2 : ∀ d, d < ddi.length →
      (List.zipWith3 (fun pv wv ddv => (pv, wv, ddv))
        (P.getD d []) (W.getD d [])
        ((intervals_get (intervals_set det_data ddi starts lasts maxLen
          new1) ddi starts lasts maxLen 0).getD d [])).mapM
        (fun y => scan_map_inner_w1 m3 npix_submap global2local y.1 y.2.1
          y.2.2 data_scale false true) = Except.ok (new2.getD d []) := by
    intro d hd
    have h2 := mapM_ok_getD _ (([] : List (List Int)), ([] : List (List ℚ)),
      ([] : List (List ℚ))) [] _ _ hpass2 d (by rw [hO2len]; exact hd)
    rwa [getD_zipWith3 _ _ _ _ d [] [] [] _ (by rw [hPlen]; exact hd)
      (by rw [hWlen]; exact hd)
      (by rw [intervals_get_length]; exact hd)] at h2
  have hI2len : ∀ d, d < ddi.length →
      (List.zipWith3 (fun pv wv ddv => (pv, wv, ddv))
        (P.getD d []) (W.getD d [])
        ((intervals_get (intervals_set det_data ddi starts lasts maxLen
          new1) ddi starts lasts maxLen 0).getD d [])).length =
        min starts.length lasts.length := by
    intro d hd
    rw [length_zipWith3, hProw d hd, hWrow d hd,
      intervals_get_getD_length _ _ _ _ _ _ _ hd]
    omega
  have hin2 : ∀ d v, d < ddi.length → v < min starts.length lasts.length →
      scan_map_inner_w1 m3 npix_submap global2local
        ((P.getD d []).getD v []) ((W.getD d []).getD v [])
        (((intervals_get (intervals_set det_data ddi starts lasts maxLen
          new1) ddi starts lasts maxLen 0).getD d []).getD v [])
        data_scale false true = Except.ok ((new2.getD d []).getD v []) := by
    intro d v hd hv
    have h2 := mapM_ok_getD _ (([] : List Int), ([] : List ℚ),
      ([] : List ℚ)) [] _ _ (hrow2 d hd) v (by rw [hI2len d hd]; exact hv)
    rwa [getD_zipWith3 _ _ _ _ v [] [] [] _ (by rw [hProw d hd]; exact hv)
      (by rw [hWrow d hd]; exact hv)
      (by rw [intervals_get_getD_length _ _ _ _ _ _ _ hd]; exact hv)] at h2
  have hval2 : ∀ d v, d < ddi.length → v < min starts.length lasts.length →
      (new2.getD d []).getD v [] = List.zipWith (· - ·)
        (((intervals_get (intervals_set det_data ddi starts lasts maxLen
          new1) ddi starts lasts maxLen 0).getD d []).getD v [])
        (update_w1 m3 npix_submap global2local ((P.getD d []).getD v [])
          ((W.getD d []).getD v []) data_scale) := by
    intro d v hd hv
    obtain ⟨p, hp⟩ := hbroad d v hd hv
    have h2 := (hin2 d v hd hv).symm.trans
      (scan_map_inner_w1_char m3 npix_submap global2local _ _ _ data_scale
        true p hp)
    have h3 := Except.ok.inj h2
    simpa using h3
  have hlen_new1 : new1.length = ddi.length := by
    rw [mapM_ok_length _ _ _ h1, hO1len]
  have hrow_new1 : ∀ d, d < ddi.length →
      (new1.getD d []).length = min starts.length lasts.length := by
    intro d hd
    rw [mapM_ok_length _ _ _ (hrow1 d hd), hI1len d hd]
  have hlen_new2 : new2.length = ddi.length := by
    rw [mapM_ok_length _ _ _ hpass2, hO2len]
  have hrow_new2 : ∀ d, d < ddi.length →
      (new2.getD d []).length = min starts.length lasts.length := by
    intro d hd
    rw [mapM_ok_length _ _ _ (hrow2 d hd), hI2len d hd]
  let Pl : Nat × Nat × Nat → Nat × Int := fun t =>
    (jaxIndex det_data.length (ddi.getD t.1 0),
      starts.getD t.2.1 0 + (t.2.2 : Int))
  let Ul : Nat × Nat × Nat → ℚ := fun t =>
    (update_w1 m3 npix_submap global2local ((P.getD t.1 []).getD t.2.1 [])
      ((W.getD t.1 []).getD t.2.1 []) data_scale).getD t.2.2 0
  let Al : Nat × Nat × Nat → ℚ := fun t =>
    jaxGetD (jaxGetD det_data (ddi.getD t.1 0) [])
      (starts.getD t.2.1 0 + (t.2.2 : Int)) 0
  let Bl : Nat × Nat × Nat → ℚ := fun t =>
    jaxGetD (jaxGetD (intervals_set det_data ddi starts lasts maxLen new1)
      (ddi.getD t.1 0) []) (starts.getD t.2.1 0 + (t.2.2 : Int)) 0
  have hfac1 := intervals_set_factor det_data ddi starts lasts maxLen new1
    hlen_new1 hrow_new1
  have hfac2 := intervals_set_factor (intervals_set det_data ddi starts
    lasts maxLen new1) ddi starts lasts maxLen new2 hlen_new2 hrow_new2
  rw [hd1len] at hfac2
  have hmap1 : (scatter_triples ddi.length starts lasts maxLen).map
      (fun t => ((jaxIndex det_data.length (ddi.getD t.1 0),
        starts.getD t.2.1 0 + (t.2.2 : Int)),
        ((new1.getD t.1 []).getD t.2.1 []).getD t.2.2 0)) =
      (scatter_triples ddi.length starts lasts maxLen).map
        (fun t => (Pl t, Al t + Ul t)) := by
    apply List.map_congr_left
    intro t ht
    obtain ⟨htd, htv, htk, htreal⟩ := mem_scatter_triples _ _ _ _ t ht
    have hkd : t.2.2 < (((intervals_get det_data ddi starts lasts maxLen
        0).getD t.1 []).getD t.2.1 []).length := by
      rw [intervals_get_getD_getD_length _ _ _ _ _ _ _ _ htd htv]
      omega
    have hku : t.2.2 < (update_w1 m3 npix_submap global2local
        ((P.getD t.1 []).getD t.2.1 []) ((W.getD t.1 []).getD t.2.1 [])
        data_scale).length := by
      obtain ⟨p, hp⟩ := hbroad t.1 t.2.1 htd htv
      rw [update_w1_length _ _ _ _ _ _ _ hp, hPk t.1 t.2.1 htd htv]
      omega
    have hddv := intervals_get_value det_data ddi starts lasts maxLen 0
      t.1 t.2.1 t.2.2 htd htv htk
    rw [min_eq_left htreal] at hddv
    rw [hval1 t.1 t.2.1 htd htv,
      getD_zipWith _ _ _ t.2.2 0 0 0 hkd hku, hddv]
  have hmap2 : (scatter_triples ddi.length starts lasts maxLen).map
      (fun t => ((jaxIndex det_data.length (ddi.getD t.1 0),
        starts.getD t.2.1 0 + (t.2.2 : Int)),
        ((new2.getD t.1 []).getD t.2.1 []).getD t.2.2 0)) =
      (scatter_triples ddi.length starts lasts maxLen).map
        (fun t => (Pl t, Bl t - Ul t)) := by
    apply List.map_congr_left
    intro t ht
    obtain ⟨htd, htv, htk, htreal⟩ := mem_scatter_triples _ _ _ _ t ht
    have hkd : t.2.2 < (((intervals_get (intervals_set det_data ddi starts
        lasts maxLen new1) ddi starts lasts maxLen 0).getD t.1 []).getD
        t.2.1 []).length := by
      rw [intervals_get_getD_getD_length _ _ _ _ _ _ _ _ htd htv]
      omega
    have hku : t.2.2 < (update_w1 m3 npix_submap global2local
        ((P.getD t.1 []).getD t.2.1 []) ((W.getD t.1 []).getD t.2.1 [])
        data_scale).length := by
      obtain ⟨p, hp⟩ := hbroad t.1 t.2.1 htd htv
      rw [update_w1_length _ _ _ _ _ _ _ hp, hPk t.1 t.2.1 htd htv]
      omega
    have hddv := intervals_get_value (intervals_set det_data ddi starts
      lasts maxLen new1) ddi starts lasts maxLen 0 t.1 t.2.1 t.2.2 htd htv
      htk
    rw [min_eq_left htreal] at hddv
    rw [hval2 t.1 t.2.1 htd htv,
      getD_zipWith _ _ _ t.2.2 0 0 0 hkd hku, hddv]
  have hd1eq : intervals_set det_data ddi starts lasts maxLen new1 =
      apply_writes det_data ((scatter_triples ddi.length starts lasts
        maxLen).map (fun t => (Pl t, Al t + Ul t))) := by
    rw [hfac1, hmap1]
  have hA : ∀ t ∈ scatter_triples ddi.length starts lasts maxLen,
      (Pl t).1 < det_data.length → 0 ≤ (Pl t).2 →
      (Pl t).2 < (rowLen det_data (Pl t).1 : Int) →
      Al t = getD2 det_data (Pl t).1 (Pl t).2.toNat := by
    intro t _ hb1 hb2 hb3
    have hb1' : jaxIndex det_data.length (ddi.getD t.1 0) <
        det_data.length := hb1
    have hb2' : (0 : Int) ≤ starts.getD t.2.1 0 + (t.2.2 : Int) := hb2
    have hb3' : starts.getD t.2.1 0 + (t.2.2 : Int) <
        ((det_data.getD (jaxIndex det_data.length
          (ddi.getD t.1 0)) []).length : Int) := hb3
    show jaxGetD (jaxGetD det_data (ddi.getD t.1 0) [])
      (starts.getD t.2.1 0 + (t.2.2 : Int)) 0 = _
    rw [jaxGetD_row det_data _ (by omega)]
    exact jaxGetD_of_bounds _ _ _ hb2' hb3'
  have hB : ∀ t ∈ scatter_triples ddi.length starts lasts maxLen,
      (Pl t).1 < det_data.length → 0 ≤ (Pl t).2 →
      (Pl t).2 < (rowLen det_data (Pl t).1 : Int) →
      Bl t = getD2 (apply_writes det_data
        ((scatter_triples ddi.length starts lasts maxLen).map
          (fun t => (Pl t, Al t + Ul t)))) (Pl t).1 (Pl t).2.toNat := by
    intro t _ hb1 hb2 hb3
    rw [← hd1eq]
    have hb1' : jaxIndex det_data.length (ddi.getD t.1 0) <
        det_data.length := hb1
    have hb2' : (0 : Int) ≤ starts.getD t.2.1 0 + (t.2.2 : Int) := hb2
    have hb3' : starts.getD t.2.1 0 + (t.2.2 : Int) <
        (((intervals_set det_data ddi starts lasts maxLen new1).getD
          (jaxIndex det_data.length (ddi.getD t.1 0)) []).length : Int) := by
      have h4 := hd1row (jaxIndex det_data.length (ddi.getD t.1 0))
      unfold rowLen at h4
      rw [h4]
      exact hb3
    show jaxGetD (jaxGetD (intervals_set det_data ddi starts lasts maxLen
      new1) (ddi.getD t.1 0) [])
      (starts.getD t.2.1 0 + (t.2.2 : Int)) 0 = _
    rw [jaxGetD_row (intervals_set det_data ddi starts lasts maxLen new1) _
      (by rw [hd1len]; omega), hd1len]
    exact jaxGetD_of_bounds _ _ _ hb2' hb3'
  rw [hfac2, hmap2, hd1eq]
  exact roundtrip_core _ Pl Ul Al Bl det_data hA hB

theorem scan_map_interval_roundtrip_nw (mapdata : List ℚ)
    (nmap npix_submap : Int) (global2local : List Int)
    (det_data : List (List ℚ)) (det_data_index : List Int)
    (pixels : List (List Int)) (pixels_index : List Int)
    (starts lasts : List Int) (maxLen : Nat) (data_scale : ℚ)
    (d1 : List (List ℚ))
    (h : scan_map_interval mapdata nmap npix_submap global2local det_data
      det_data_index pixels pixels_index WeightsArg.noweights starts lasts
      maxLen data_scale false false = Except.ok d1) :
    scan_map_interval mapdata nmap npix_submap global2local d1
      det_data_index pixels pixels_index WeightsArg.noweights starts lasts
      maxLen data_scale false true = Except.ok det_data := by
  unfold scan_map_interval at h
  obtain ⟨m3, hre, h⟩ := except_bind_ok h
  by_cases hvm : vmap_sizes_ok WeightsArg.noweights pixels_index
      det_data_index = true
  swap
  · rw [if_neg hvm] at h
    simp at h
  rw [if_pos hvm] at h
  obtain ⟨new1, hnew1, h2⟩ := except_bind_ok h
  injection h2 with h3
  have hpi : pixels_index.length = det_data_index.length := by
    simpa [vmap_sizes_ok, beq_iff_eq] using hvm
  have hcore := scan_map_w1_roundtrip_core m3 npix_submap global2local
    det_data det_data_index
    (intervals_get pixels pixels_index starts lasts maxLen 0)
    ((intervals_get pixels pixels_index starts lasts maxLen 0).map
      (fun pd => pd.map (fun pv => pv.map (fun _ => (1 : ℚ)))))
    starts lasts maxLen data_scale new1
    (by rw [intervals_get_length]; exact hpi)
    (by rw [List.length_map, intervals_get_length]; exact hpi)
    (fun d hd => intervals_get_getD_length _ _ _ _ _ _ d (by omega))
    (fun d hd => by
      have hgd : ((intervals_get pixels pixels_index starts lasts maxLen
          0).map (fun pd => pd.map (fun pv => pv.map
            (fun _ => (1 : ℚ))))).getD d [] =
          ((intervals_get pixels pixels_index starts lasts maxLen
            0).getD d []).map (fun pv => pv.map (fun _ => (1 : ℚ))) :=
        getD_map _ _ d [] [] (by rw [intervals_get_length]; omega)
      rw [hgd, List.length_map]
      exact intervals_get_getD_length _ _ _ _ _ _ d (by omega))
    (fun d v hd hv => intervals_get_getD_getD_length _ _ _ _ _ _ d v
      (by omega) hv)
    hnew1
  obtain ⟨new2, hpass2, hset2⟩ := hcore
  rw [h3] at hpass2 hset2
  rw [scan_map_interval_nw_eq mapdata nmap npix_submap global2local d1
    det_data_index pixels pixels_index starts lasts maxLen data_scale false
    true m3 hre hvm]
  rw [hpass2]
  show Except.ok (intervals_set d1 det_data_index starts lasts maxLen new2)
    = Except.ok det_data
  rw [hset2]

theorem scan_map_interval_roundtrip_w2 (mapdata : List ℚ)
    (nmap npix_submap : Int) (global2local : List Int)
    (det_data : List (List ℚ)) (det_data_index : List Int)
    (pixels : List (List Int)) (pixels_index : List Int)
    (w : List (List ℚ)) (windex : List Int)
    (starts lasts : List Int) (maxLen : Nat) (data_scale : ℚ)
    (d1 : List (List ℚ))
    (h : scan_map_interval mapdata nmap npix_submap global2local det_data
      det_data_index pixels pixels_index (WeightsArg.w2 w windex) starts
      lasts maxLen data_scale false false = Except.ok d1) :
    scan_map_interval mapdata nmap npix_submap global2local d1
      det_data_index pixels pixels_index (WeightsArg.w2 w windex) starts
      lasts maxLen data_scale false true = Except.ok det_data := by
  unfold scan_map_interval at h
  obtain ⟨m3, hre, h⟩ := except_bind_ok h
  by_cases hvm : vmap_sizes_ok (WeightsArg.w2 w windex) pixels_index
      det_data_index = true
  swap
  · rw [if_neg hvm] at h
    simp at h
  rw [if_pos hvm] at h
  obtain ⟨new1, hnew1, h2⟩ := except_bind_ok h
  injection h2 with h3
  have hpiwi : pixels_index.length = det_data_index.length ∧
      windex.length = det_data_index.length := by
    simpa [vmap_sizes_ok, Bool.and_eq_true, beq_iff_eq] using hvm
  have hcore := scan_map_w1_roundtrip_core m3 npix_submap global2local
    det_data det_data_index
    (intervals_get pixels pixels_index starts lasts maxLen 0)
    (intervals_get w windex starts lasts maxLen (0 : ℚ))
    starts lasts maxLen data_scale new1
    (by rw [intervals_get_length]; exact hpiwi.1)
    (by rw [intervals_get_length]; exact hpiwi.2)
    (fun d hd => intervals_get_getD_length _ _ _ _ _ _ d (by omega))
    (fun d hd => intervals_get_getD_length _ _ _ _ _ _ d (by
      have := hpiwi.2
      omega))
    (fun d v hd hv => intervals_get_getD_getD_length _ _ _ _ _ _ d v
      (by have := hpiwi.1; omega) hv)
    hnew1
  obtain ⟨new2, hpass2, hset2⟩ := hcore
  rw [h3] at hpass2 hset2
  rw [scan_map_interval_w2_eq mapdata nmap npix_submap global2local d1
    det_data_index pixels pixels_index w windex starts lasts maxLen
    data_scale false true m3 hre hvm]
  rw [hpass2]
  show Except.ok (intervals_set d1 det_data_index starts lasts maxLen new2)
    = Except.ok det_data
  rw [hset2]

/-! ### Claim theorems -/

/-- C1: Scenario A — with submapSize 4, `global2local = [0, -1]`, one detector
with one interval covering samples 0..2, pixels `[0, 1, 5]`, unit weights, a
one-component local map whose submap 0 holds `[10, 20, 30, 40]`, accumulate
mode, dataScale 1 and initial timestream `[0, 0, 0]`, the scan-map operation
produces the timestream `[10, 20, 0]`: pixel 5 resolves to the unowned global
submap 1 and contributes zero. -/
theorem claim_C1_scenarioA :
    scan_map [10, 20, 30, 40] 1 [[0, 0, 0]] [0] [[0, 1, 5]] [0]
      (WeightsArg.w3 [[[1], [1], [1]]] [0]) [0] [2] 4 [0, -1] 1 false false =
      Except.ok [[10, 20, 0]] := by
  have hin : scan_map_inner [[[10], [20], [30], [40]]] 4 [0, -1] [0, 1, 5]
      [[1], [1], [1]] [0, 0, 0] 1 false false = [10, 20, 0] := by
    norm_num [scan_map_inner, scan_map_update, scan_map_gathered,
      global_to_local, jaxGetD, jaxIndex,
      (by decide : Int.fdiv 0 4 = 0), (by decide : Int.fmod 0 4 = 0),
      (by decide : Int.fdiv 1 4 = 0), (by decide : Int.fmod 1 4 = 1),
      (by decide : Int.fdiv 5 4 = 1), (by decide : Int.fmod 5 4 = 1)]
  calc
    scan_map [10, 20, 30, 40] 1 [[0, 0, 0]] [0] [[0, 1, 5]] [0]
        (WeightsArg.w3 [[[1], [1], [1]]] [0]) [0] [2] 4 [0, -1] 1 false false =
        Except.ok (intervals_set [[0, 0, 0]] [0] [0] [2] 3
          [[scan_map_inner [[[10], [20], [30], [40]]] 4 [0, -1] [0, 1, 5]
              [[1], [1], [1]] [0, 0, 0] 1 false false]]) := rfl
    _ = Except.ok (intervals_set [[0, 0, 0]] [0] [0] [2] 3 [[[10, 20, 0]]]) := by
          rw [hin]
    _ = Except.ok [[10, 20, 0]] := rfl

/-- C3: the combination mode of the scan/accumulate transform — with projected
value `u` and prior timestream value `old`, `scan_map_inner` yields `old + u`
for accumulate, `old - u` for subtract, and with the zero-first flag discards
the prior value, giving `u` for zero-then-assign and `0 - u` for zero with
subtract; in particular Scenario B (Scenario A geometry, zero-then-assign,
dataScale 2) yields `[20, 40, 0]`. -/
theorem claim_C3_combination_modes :
    (∀ (mapdata : List (List (List ℚ))) (npix_submap : Int)
      (global2local : List Int) (pixels : List Int) (weights : List (List ℚ))
      (det_data : List ℚ) (data_scale : ℚ) (should_zero should_subtract : Bool),
      scan_map_inner mapdata npix_submap global2local pixels weights det_data
          data_scale should_zero should_subtract =
        List.zipWith
          (fun old u => (if should_zero then 0 else old) +
            (if should_subtract then -u else u))
          det_data
          (scan_map_update mapdata npix_submap global2local pixels weights
            data_scale)) ∧
    scan_map [10, 20, 30, 40] 1 [[0, 0, 0]] [0] [[0, 1, 5]] [0]
      (WeightsArg.w3 [[[1], [1], [1]]] [0]) [0] [2] 4 [0, -1] 2 true false =
      Except.ok [[20, 40, 0]] := by
  constructor
  · intro mapdata npix_submap global2local pixels weights det_data data_scale
      should_zero should_subtract
    unfold scan_map_inner
    cases should_zero <;> cases should_subtract <;>
      simp only [Bool.false_eq_true, if_false, if_true, List.zipWith_map_left] <;>
      exact zipWith_ext _ _ (fun a b => by ring) _ _
  · have hin : scan_map_inner [[[10], [20], [30], [40]]] 4 [0, -1] [0, 1, 5]
        [[1], [1], [1]] [0, 0, 0] 2 true false = [20, 40, 0] := by
      norm_num [scan_map_inner, scan_map_update, scan_map_gathered,
        global_to_local, jaxGetD, jaxIndex,
        (by decide : Int.fdiv 0 4 = 0), (by decide : Int.fmod 0 4 = 0),
        (by decide : Int.fdiv 1 4 = 0), (by decide : Int.fmod 1 4 = 1),
        (by decide : Int.fdiv 5 4 = 1), (by decide : Int.fmod 5 4 = 1)]
    calc
      scan_map [10, 20, 30, 40] 1 [[0, 0, 0]] [0] [[0, 1, 5]] [0]
          (WeightsArg.w3 [[[1], [1], [1]]] [0]) [0] [2] 4 [0, -1] 2 true false =
          Except.ok (intervals_set [[0, 0, 0]] [0] [0] [2] 3
            [[scan_map_inner [[[10], [20], [30], [40]]] 4 [0, -1] [0, 1, 5]
                [[1], [1], [1]] [0, 0, 0] 2 true false]]) := rfl
      _ = Except.ok (intervals_set [[0, 0, 0]] [0] [0] [2] 3 [[[20, 40, 0]]]) := by
            rw [hin]
      _ = Except.ok [[20, 40, 0]] := rfl

/-- C2: invalid-pixel invariance — for every sample whose pixel index is
negative (the `-1` flag sentinel) or whose global submap resolves through
`global2local` to the unowned sentinel `-1`, the projected update value is
zero and under accumulate mode (`should_zero = false`,
`should_subtract = false`) the timestream value of that sample is unchanged;
no error is raised (`scan_map_inner` is total). -/
theorem claim_C2_invalid_pixel (mapdata : List (List (List ℚ)))
    (npix_submap : Int) (global2local : List Int) (pixels : List Int)
    (weights : List (List ℚ)) (det_data : List ℚ) (data_scale : ℚ) (i : Nat)
    (hp : i < pixels.length) (hw : i < weights.length)
    (hd : i < det_data.length)
    (hinv : pixels.getD i 0 < 0 ∨
      (global_to_local pixels npix_submap global2local).1.getD i 0 = -1) :
    (scan_map_update mapdata npix_submap global2local pixels weights
        data_scale).getD i 0 = 0 ∧
    (scan_map_inner mapdata npix_submap global2local pixels weights det_data
        data_scale false false).getD i 0 = det_data.getD i 0 := by
  have hinvalid :
      ¬(0 ≤ (global_to_local pixels npix_submap global2local).2.getD i 0 ∧
        0 ≤ (global_to_local pixels npix_submap global2local).1.getD i 0) := by
    rcases hinv with h | h
    · rw [g2l_snd_getD _ _ _ _ hp, if_pos h]
      intro hc
      exact absurd hc.1 (by norm_num)
    · intro hc
      rw [h] at hc
      exact absurd hc.2 (by norm_num)
  have hmd : (scan_map_gathered mapdata npix_submap global2local pixels).getD
      i [] =
      (jaxGetD (jaxGetD mapdata
          ((global_to_local pixels npix_submap global2local).1.getD i 0) [])
        ((global_to_local pixels npix_submap global2local).2.getD i 0)
        []).map (fun _ => (0 : ℚ)) := by
    rw [gathered_getD _ _ _ _ _ hp]
    simp only [if_neg hinvalid]
  have hglen : (scan_map_gathered mapdata npix_submap global2local
      pixels).length = pixels.length := gathered_length _ _ _ _
  have hgi : i < (scan_map_gathered mapdata npix_submap global2local
      pixels).length := by omega
  have hzlen : i < (List.zipWith
      (fun row w => (List.zipWith (· * ·) row w).sum)
      (scan_map_gathered mapdata npix_submap global2local pixels)
      weights).length := by
    rw [List.length_zipWith]; omega
  have hupd : (scan_map_update mapdata npix_submap global2local pixels weights
      data_scale).getD i 0 = 0 := by
    simp only [scan_map_update]
    rw [getD_map _ _ _ 0 _ hzlen, getD_zipWith _ _ _ i [] [] _ hgi hw, hmd,
      zero_dot]
    ring
  refine ⟨hupd, ?_⟩
  have hulen : i < (scan_map_update mapdata npix_submap global2local pixels
      weights data_scale).length := by
    simp only [scan_map_update, List.length_map, List.length_zipWith]
    omega
  have hrw : scan_map_inner mapdata npix_submap global2local pixels weights
      det_data data_scale false false =
      List.zipWith (· + ·) det_data (scan_map_update mapdata npix_submap
        global2local pixels weights data_scale) := rfl
  rw [hrw, getD_zipWith _ _ _ i 0 0 _ hd hulen, hupd, add_zero]

/-- Witness for C2 at a concrete invalid sample: pixel `-1` with a nonempty
map, unit weight and prior timestream value 5. -/
theorem claim_C2_invalid_pixel_witness :
    (scan_map_update [[[7]]] 4 [0] [-1] [[1]] 1).getD 0 0 = 0 ∧
    (scan_map_inner [[[7]]] 4 [0] [-1] [[1]] [5] 1 false false).getD 0 0 =
      [(5 : ℚ)].getD 0 0 :=
  claim_C2_invalid_pixel [[[7]]] 4 [0] [-1] [[1]] [5] 1 0 (by decide)
    (by decide) (by decide) (Or.inl (by decide))

/-- C7: global-to-local resolution — for a sample `i`, if the pixel is
negative both the local submap and the pixel-in-submap are the sentinel `-1`;
for every non-negative pixel `p` (no further hypotheses) the local submap is
the gathered `global2local[p div submapSize]` — the clamped JAX gather the
code performs — and the pixel-in-submap is `p mod submapSize`; when the
submap size is positive and the quotient lies inside the table this gather
is the plain table entry `global2local[p div submapSize]`; and the
resolution of sample `i` depends only on pixel `i`, independent of every
other sample. -/
theorem claim_C7_global_to_local (pixels : List Int) (npix_submap : Int)
    (global2local : List Int) (i : Nat) (hi : i < pixels.length) :
    (pixels.getD i 0 < 0 →
      (global_to_local pixels npix_submap global2local).1.getD i 0 = -1 ∧
      (global_to_local pixels npix_submap global2local).2.getD i 0 = -1) ∧
    (0 ≤ pixels.getD i 0 →
      (global_to_local pixels npix_submap global2local).1.getD i 0 =
        jaxGetD global2local ((pixels.getD i 0).fdiv npix_submap) 0 ∧
      (global_to_local pixels npix_submap global2local).2.getD i 0 =
        (pixels.getD i 0).fmod npix_submap) ∧
    (0 ≤ pixels.getD i 0 → 0 < npix_submap →
      ((pixels.getD i 0).fdiv npix_submap).toNat < global2local.length →
      (global_to_local pixels npix_submap global2local).1.getD i 0 =
        global2local.getD ((pixels.getD i 0).fdiv npix_submap).toNat 0 ∧
      (global_to_local pixels npix_submap global2local).2.getD i 0 =
        (pixels.getD i 0).fmod npix_submap) ∧
    (∀ pixels2 : List Int, i < pixels2.length →
      pixels2.getD i 0 = pixels.getD i 0 →
      (global_to_local pixels2 npix_submap global2local).1.getD i 0 =
        (global_to_local pixels npix_submap global2local).1.getD i 0 ∧
      (global_to_local pixels2 npix_submap global2local).2.getD i 0 =
        (global_to_local pixels npix_submap global2local).2.getD i 0) := by
  refine ⟨?_, ?_, ?_, ?_⟩
  · intro hneg
    rw [g2l_fst_getD _ _ _ _ hi, g2l_snd_getD _ _ _ _ hi, if_pos hneg,
      if_pos hneg]
    exact ⟨rfl, rfl⟩
  · intro hpos
    rw [g2l_fst_getD _ _ _ _ hi, g2l_snd_getD _ _ _ _ hi,
      if_neg (not_lt.mpr hpos), if_neg (not_lt.mpr hpos)]
    exact ⟨rfl, rfl⟩
  · intro hpos hnpix hlt
    have hq0 : 0 ≤ (pixels.getD i 0).fdiv npix_submap :=
      Int.fdiv_nonneg hpos (le_of_lt hnpix)
    have hqlt : (pixels.getD i 0).fdiv npix_submap < global2local.length := by
      omega
    rw [g2l_fst_getD _ _ _ _ hi, g2l_snd_getD _ _ _ _ hi,
      if_neg (not_lt.mpr hpos), if_neg (not_lt.mpr hpos),
      jaxGetD_of_bounds _ _ _ hq0 hqlt]
    exact ⟨rfl, rfl⟩
  · intro pixels2 hi2 heq
    rw [g2l_fst_getD _ _ _ _ hi, g2l_snd_getD _ _ _ _ hi,
      g2l_fst_getD _ _ _ _ hi2, g2l_snd_getD _ _ _ _ hi2, heq]
    exact ⟨rfl, rfl⟩

/-- Witness for C7 at concrete samples: pixels `[-3, 9]` with submap size 4
and table `[5, 7, 11]`: sample 0 resolves to `(-1, -1)`, sample 1 to
`(global2local[2], 1)`, and sample 1 resolves identically in `[0, 9]`;
pixel `100` (quotient 25, outside the 3-entry table) resolves through the
clamped gather. -/
theorem claim_C7_global_to_local_witness :
    ((global_to_local [-3, 9] 4 [5, 7, 11]).1.getD 0 0 = -1 ∧
      (global_to_local [-3, 9] 4 [5, 7, 11]).2.getD 0 0 = -1) ∧
    ((global_to_local [100] 4 [5, 7, 11]).1.getD 0 0 =
        jaxGetD [5, 7, 11] (Int.fdiv 100 4) 0 ∧
      (global_to_local [100] 4 [5, 7, 11]).2.getD 0 0 = Int.fmod 100 4) ∧
    ((global_to_local [-3, 9] 4 [5, 7, 11]).1.getD 1 0 =
        [5, 7, 11].getD (Int.toNat (Int.fdiv 9 4)) 0 ∧
      (global_to_local [-3, 9] 4 [5, 7, 11]).2.getD 1 0 = Int.fmod 9 4) ∧
    ((global_to_local [0, 9] 4 [5, 7, 11]).1.getD 1 0 =
        (global_to_local [-3, 9] 4 [5, 7, 11]).1.getD 1 0 ∧
      (global_to_local [0, 9] 4 [5, 7, 11]).2.getD 1 0 =
        (global_to_local [-3, 9] 4 [5, 7, 11]).2.getD 1 0) :=
  ⟨(claim_C7_global_to_local [-3, 9] 4 [5, 7, 11] 0 (by decide)).1 (by decide),
   (claim_C7_global_to_local [100] 4 [5, 7, 11] 0 (by decide)).2.1 (by decide),
   (claim_C7_global_to_local [-3, 9] 4 [5, 7, 11] 1 (by decide)).2.2.1
     (by decide) (by decide) (by decide),
   (claim_C7_global_to_local [-3, 9] 4 [5, 7, 11] 1 (by decide)).2.2.2 [0, 9]
     (by decide) (by decide)⟩

/-- C8: zero-weight invariance — if every pointing weight is zero, every
projected update value computed by `scan_map_update` is zero, for every map
content and every `data_scale`. -/
theorem claim_C8_zero_weights (mapdata : List (List (List ℚ)))
    (npix_submap : Int) (global2local : List Int) (pixels : List Int)
    (weights : List (List ℚ)) (data_scale : ℚ)
    (hw : ∀ w ∈ weights, ∀ x ∈ w, x = 0) :
    ∀ u ∈ scan_map_update mapdata npix_submap global2local pixels weights
      data_scale, u = 0 := by
  intro u hu
  simp only [scan_map_update] at hu
  rcases List.mem_map.mp hu with ⟨y, hy, rfl⟩
  rw [zipWith_dot_zero _ weights hw y hy]
  ring

/-- Witness for C8: zero weights over a nonzero map and nonzero scale make
the first projected update value zero. -/
theorem claim_C8_zero_weights_witness :
    (scan_map_update [[[7, 9]]] 4 [0] [0, 1] [[0, 0], [0, 0]] 3).getD 0 0
      = 0 :=
  claim_C8_zero_weights [[[7, 9]]] 4 [0] [0, 1] [[0, 0], [0, 0]] 3
    (by norm_num) _
    (by
      rw [List.getD_eq_getElem _ _ (by rw [scan_map_update_length]; decide)]
      exact List.getElem_mem _)

/-- C5: frame effect of the scatter-back — `scan_map_interval` modifies only
timestream entries whose row is selected by the detector row index and whose
sample position lies inside some real interval `[start, last]`; every other
entry (padded tails, uncovered samples, unreferenced rows) keeps its value
and the array shape is preserved; and with an empty interval set the
timestream is returned unmodified (a no-op). -/
theorem claim_C5_frame_effect :
    (∀ (mapdata : List ℚ) (nmap npix_submap : Int) (global2local : List Int)
      (det_data : List (List ℚ)) (det_data_index : List Int)
      (pixels : List (List Int)) (pixels_index : List Int)
      (weights : WeightsArg) (starts lasts : List Int) (maxLen : Nat)
      (data_scale : ℚ) (z s : Bool) (res : List (List ℚ)),
      scan_map_interval mapdata nmap npix_submap global2local det_data
          det_data_index pixels pixels_index weights starts lasts maxLen
          data_scale z s = Except.ok res →
      res.length = det_data.length ∧
      (∀ r, rowLen res r = rowLen det_data r) ∧
      (∀ r j : Nat,
        ((∀ ridx ∈ det_data_index, r ≠ jaxIndex det_data.length ridx) ∨
          (∀ se ∈ List.zip starts lasts,
            ¬(se.1 ≤ (j : Int) ∧ (j : Int) ≤ se.2))) →
        getD2 res r j = getD2 det_data r j)) ∧
    (∀ (mapdata : List ℚ) (nmap npix_submap : Int) (global2local : List Int)
      (det_data : List (List ℚ)) (det_data_index : List Int)
      (pixels : List (List Int)) (pixels_index : List Int)
      (weights : WeightsArg) (maxLen : Nat) (data_scale : ℚ) (z s : Bool)
      (m3 : List (List (List ℚ))),
      reshape_submaps mapdata npix_submap nmap = Except.ok m3 →
      vmap_sizes_ok weights pixels_index det_data_index = true →
      scan_map_interval mapdata nmap npix_submap global2local det_data
        det_data_index pixels pixels_index weights [] [] maxLen data_scale
        z s = Except.ok det_data) := by
  constructor
  · intro mapdata nmap npix_submap global2local det_data det_data_index
      pixels pixels_index weights starts lasts maxLen data_scale z s res h
    obtain ⟨vals, rfl⟩ := scan_map_interval_ok_form mapdata nmap npix_submap
      global2local det_data det_data_index pixels pixels_index weights starts
      lasts maxLen data_scale z s res h
    simp only [intervals_set]
    refine ⟨length_apply_writes _ _, fun r => rowLen_apply_writes _ _ _, ?_⟩
    intro r j hno
    apply getD2_apply_writes_nomatch
    intro w hw
    have hmem := intervals_set_write_mem det_data det_data_index starts lasts
      maxLen vals w hw
    intro hc
    rcases hno with hrow | hcol
    · obtain ⟨ridx, hr1, hr2⟩ := hmem.1
      apply hrow ridx hr1
      rw [hc] at hr2
      exact hr2
    · obtain ⟨se, hs1, hs2, hs3⟩ := hmem.2
      apply hcol se hs1
      rw [hc] at hs2 hs3
      exact ⟨hs2, hs3⟩
  · intro mapdata nmap npix_submap global2local det_data det_data_index
      pixels pixels_index weights maxLen data_scale z s m3 hre hvm
    unfold scan_map_interval
    rw [hre, except_ok_bind, if_pos hvm]
    cases weights with
    | w3 w windex =>
        simp only [intervals_set_empty]
        rfl
    | noweights =>
        have hpx : ∀ x ∈ List.zipWith3 (fun pd wd ddp => (pd, wd, ddp))
            (intervals_get pixels pixels_index [] [] maxLen 0)
            ((intervals_get pixels pixels_index [] [] maxLen 0).map
              (fun pd => pd.map (fun pv => pv.map (fun _ => (1 : ℚ)))))
            (intervals_get det_data det_data_index [] [] maxLen 0),
            x.1 = [] := by
          intro x hx
          have hfst := zipWith3_mk_mem_fst _ _ _ x hx
          rcases List.mem_map.mp hfst with ⟨r, _, hr⟩
          exact hr.symm
        have hM := mapM_rows_of_fst_nil (fun y => scan_map_inner_w1 m3
          npix_submap global2local y.1 y.2.1 y.2.2 data_scale z s) _ hpx
        simp only [hM, except_ok_bind, intervals_set_empty]
        rfl
    | w2 w windex =>
        have hpx : ∀ x ∈ List.zipWith3 (fun pd wd ddp => (pd, wd, ddp))
            (intervals_get pixels pixels_index [] [] maxLen 0)
            (intervals_get w windex [] [] maxLen (0 : ℚ))
            (intervals_get det_data det_data_index [] [] maxLen 0),
            x.1 = [] := by
          intro x hx
          have hfst := zipWith3_mk_mem_fst _ _ _ x hx
          rcases List.mem_map.mp hfst with ⟨r, _, hr⟩
          exact hr.symm
        have hM := mapM_rows_of_fst_nil (fun y => scan_map_inner_w1 m3
          npix_submap global2local y.1 y.2.1 y.2.2 data_scale z s) _ hpx
        simp only [hM, except_ok_bind, intervals_set_empty]
        rfl

/-- Witness for C5: with one detector, one interval `[0, 2]` and a four-sample
row, the uncovered position 3 keeps its value; and with an empty interval set
the timestream `[[7, 8]]` is returned unmodified. -/
theorem claim_C5_frame_effect_witness :
    getD2 [[10, 20, 0, 0]] 0 3 = getD2 [[0, 0, 0, 0]] 0 3 ∧
    scan_map_interval [10, 20, 30, 40] 1 4 [0, -1] [[7, 8]] [0] [[0, 1]] [0]
      (WeightsArg.w3 [[[1], [1]]] [0]) [] [] 0 1 false false =
      Except.ok [[7, 8]] := by
  constructor
  · have hin : scan_map_inner [[[10], [20], [30], [40]]] 4 [0, -1] [0, 1, 5]
        [[1], [1], [1]] [0, 0, 0] 1 false false = [10, 20, 0] := by
      norm_num [scan_map_inner, scan_map_update, scan_map_gathered,
        global_to_local, jaxGetD, jaxIndex,
        (by decide : Int.fdiv 0 4 = 0), (by decide : Int.fmod 0 4 = 0),
        (by decide : Int.fdiv 1 4 = 0), (by decide : Int.fmod 1 4 = 1),
        (by decide : Int.fdiv 5 4 = 1), (by decide : Int.fmod 5 4 = 1)]
    have h : scan_map_interval [10, 20, 30, 40] 1 4 [0, -1] [[0, 0, 0, 0]]
        [0] [[0, 1, 5]] [0] (WeightsArg.w3 [[[1], [1], [1]]] [0]) [0] [2] 3 1
        false false = Except.ok [[10, 20, 0, 0]] := by
      calc
        scan_map_interval [10, 20, 30, 40] 1 4 [0, -1] [[0, 0, 0, 0]] [0]
            [[0, 1, 5]] [0] (WeightsArg.w3 [[[1], [1], [1]]] [0]) [0] [2] 3 1
            false false =
            Except.ok (intervals_set [[0, 0, 0, 0]] [0] [0] [2] 3
              [[scan_map_inner [[[10], [20], [30], [40]]] 4 [0, -1] [0, 1, 5]
                  [[1], [1], [1]] [0, 0, 0] 1 false false]]) := rfl
        _ = Except.ok (intervals_set [[0, 0, 0, 0]] [0] [0] [2] 3
              [[[10, 20, 0]]]) := by rw [hin]
        _ = Except.ok [[10, 20, 0, 0]] := rfl
    exact (claim_C5_frame_effect.1 [10, 20, 30, 40] 1 4 [0, -1]
      [[0, 0, 0, 0]] [0] [[0, 1, 5]] [0] (WeightsArg.w3 [[[1], [1], [1]]] [0])
      [0] [2] 3 1 false false [[10, 20, 0, 0]] h).2.2 0 3
      (Or.inr (by decide))
  · exact claim_C5_frame_effect.2 [10, 20, 30, 40] 1 4 [0, -1] [[7, 8]] [0]
      [[0, 1]] [0] (WeightsArg.w3 [[[1], [1]]] [0]) 0 1 false false
      [[[10], [20], [30], [40]]] rfl rfl

/-- C6: round-trip additivity — for every weights input (3-D weights, 2-D
weights, or the `weight_index = None` all-ones fallback), applying the
scan-map operation in accumulate mode (`should_zero = false`,
`should_subtract = false`) and then applying it again with identical map,
pixels, weights, intervals and dataScale but `should_subtract = true`
returns the packed timestream exactly to its initial values (over the exact
rational arithmetic of the embedding). -/
theorem claim_C6_roundtrip (mapdata : List ℚ) (nmap : Int)
    (det_data : List (List ℚ)) (det_data_index : List Int)
    (pixels : List (List Int)) (pixels_index : List Int)
    (weights : WeightsArg)
    (interval_firsts interval_lasts : List Int) (npix_submap : Int)
    (global2local : List Int) (data_scale : ℚ) (d1 : List (List ℚ))
    (h : scan_map mapdata nmap det_data det_data_index pixels pixels_index
      weights interval_firsts interval_lasts npix_submap
      global2local data_scale false false = Except.ok d1) :
    scan_map mapdata nmap d1 det_data_index pixels pixels_index
      weights interval_firsts interval_lasts npix_submap
      global2local data_scale false true = Except.ok det_data := by
  unfold scan_map at h ⊢
  cases weights with
  | w3 w windex =>
      exact scan_map_interval_roundtrip mapdata nmap npix_submap
        global2local det_data det_data_index pixels pixels_index w windex
        interval_firsts interval_lasts _ data_scale d1 h
  | noweights =>
      exact scan_map_interval_roundtrip_nw mapdata nmap npix_submap
        global2local det_data det_data_index pixels pixels_index
        interval_firsts interval_lasts _ data_scale d1 h
  | w2 w windex =>
      exact scan_map_interval_roundtrip_w2 mapdata nmap npix_submap
        global2local det_data det_data_index pixels pixels_index w windex
        interval_firsts interval_lasts _ data_scale d1 h

/-- Witness for C6: accumulating Scenario A scans `[10, 20, 0]` onto the zero
timestream; subtracting with identical inputs restores `[0, 0, 0]`. -/
theorem claim_C6_roundtrip_witness :
    scan_map [10, 20, 30, 40] 1 [[10, 20, 0]] [0] [[0, 1, 5]] [0]
      (WeightsArg.w3 [[[1], [1], [1]]] [0]) [0] [2] 4 [0, -1] 1 false true =
      Except.ok [[0, 0, 0]] := by
  have hin : scan_map_inner [[[10], [20], [30], [40]]] 4 [0, -1] [0, 1, 5]
      [[1], [1], [1]] [0, 0, 0] 1 false false = [10, 20, 0] := by
    norm_num [scan_map_inner, scan_map_update, scan_map_gathered,
      global_to_local, jaxGetD, jaxIndex,
      (by decide : Int.fdiv 0 4 = 0), (by decide : Int.fmod 0 4 = 0),
      (by decide : Int.fdiv 1 4 = 0), (by decide : Int.fmod 1 4 = 1),
      (by decide : Int.fdiv 5 4 = 1), (by decide : Int.fmod 5 4 = 1)]
  have h : scan_map [10, 20, 30, 40] 1 [[0, 0, 0]] [0] [[0, 1, 5]] [0]
      (WeightsArg.w3 [[[1], [1], [1]]] [0]) [0] [2] 4 [0, -1] 1 false false =
      Except.ok [[10, 20, 0]] := by
    calc
      scan_map [10, 20, 30, 40] 1 [[0, 0, 0]] [0] [[0, 1, 5]] [0]
          (WeightsArg.w3 [[[1], [1], [1]]] [0]) [0] [2] 4 [0, -1] 1 false
          false =
          Except.ok (intervals_set [[0, 0, 0]] [0] [0] [2] 3
            [[scan_map_inner [[[10], [20], [30], [40]]] 4 [0, -1] [0, 1, 5]
                [[1], [1], [1]] [0, 0, 0] 1 false false]]) := rfl
      _ = Except.ok (intervals_set [[0, 0, 0]] [0] [0] [2] 3
            [[[10, 20, 0]]]) := by rw [hin]
      _ = Except.ok [[10, 20, 0]] := rfl
  exact claim_C6_roundtrip [10, 20, 30, 40] 1 [[0, 0, 0]] [0] [[0, 1, 5]] [0]
    (WeightsArg.w3 [[[1], [1], [1]]] [0]) [0] [2] 4 [0, -1] 1 [[10, 20, 0]] h

/-- C9: configuration errors — an invocation with malformed geometry (submap
size ≤ 0, negative map component count, or row-index arrays of mismatched
lengths: the pixel against the timestream row index, or — when the weights
carry a row index — the weight row index against the timestream row index)
makes `scan_map` raise an error (the numpy reshape of the map rejects
non-positive dimensions, and `jax.vmap` rejects inconsistent detector-axis
sizes) before any batch is processed; since the error propagates, the
in-place timestream assignment (scan_map.py line 265) never happens, so no
partial processing occurs. -/
theorem claim_C9_config_error (mapdata : List ℚ) (nmap : Int)
    (det_data : List (List ℚ)) (det_data_index : List Int)
    (pixels : List (List Int)) (pixels_index : List Int) (weights : WeightsArg)
    (interval_firsts interval_lasts : List Int) (npix_submap : Int)
    (global2local : List Int) (data_scale : ℚ) (z s : Bool)
    (hbad : npix_submap ≤ 0 ∨ nmap < 0 ∨
      pixels_index.length ≠ det_data_index.length ∨
      (match weights with
        | WeightsArg.noweights => False
        | WeightsArg.w2 _ wi => wi.length ≠ det_data_index.length
        | WeightsArg.w3 _ wi => wi.length ≠ det_data_index.length)) :
    ∃ msg, scan_map mapdata nmap det_data det_data_index pixels pixels_index
      weights interval_firsts interval_lasts npix_submap global2local
      data_scale z s = Except.error msg := by
  unfold scan_map scan_map_interval
  have hre_bad : (npix_submap ≤ 0 ∨ nmap < 0) →
      ∃ msg, reshape_submaps mapdata npix_submap nmap = Except.error msg := by
    intro hb
    unfold reshape_submaps
    by_cases h1 : npix_submap < 0 ∨ nmap < 0
    · rw [if_pos h1]
      exact ⟨_, rfl⟩
    · rw [if_neg h1]
      have h0 : npix_submap * nmap = 0 := by
        have : npix_submap = 0 := by omega
        rw [this, zero_mul]
      rw [if_pos h0]
      exact ⟨_, rfl⟩
  rcases hbad with hnp | hnm | hidx | hwidx
  · obtain ⟨msg, hre⟩ := hre_bad (Or.inl hnp)
    rw [hre]
    exact ⟨msg, rfl⟩
  · obtain ⟨msg, hre⟩ := hre_bad (Or.inr hnm)
    rw [hre]
    exact ⟨msg, rfl⟩
  · cases hre : reshape_submaps mapdata npix_submap nmap with
    | error e => exact ⟨e, rfl⟩
    | ok m3 =>
        rw [except_ok_bind]
        have hvm : ¬(vmap_sizes_ok weights pixels_index det_data_index
            = true) := by
          cases weights <;>
            simp [vmap_sizes_ok, Bool.and_eq_true, beq_iff_eq, hidx]
        rw [if_neg hvm]
        exact ⟨_, rfl⟩
  · cases hre : reshape_submaps mapdata npix_submap nmap with
    | error e => exact ⟨e, rfl⟩
    | ok m3 =>
        rw [except_ok_bind]
        have hvm : ¬(vmap_sizes_ok weights pixels_index det_data_index
            = true) := by
          cases weights with
          | noweights => exact hwidx.elim
          | w2 w wi =>
              intro hvm'
              simp only [vmap_sizes_ok, Bool.and_eq_true, beq_iff_eq] at hvm'
              exact hwidx hvm'.2
          | w3 w wi =>
              intro hvm'
              simp only [vmap_sizes_ok, Bool.and_eq_true, beq_iff_eq] at hvm'
              exact hwidx hvm'.2
        rw [if_neg hvm]
        exact ⟨_, rfl⟩

/-- Witness for C9 at four malformed inputs: zero submap size, negative
component count, mismatched pixel/timestream row-index array lengths, and a
weight row-index array whose length mismatches while the other two agree. -/
theorem claim_C9_config_error_witness :
    (∃ msg, scan_map [1, 2] 1 [[0]] [0] [[0]] [0]
      (WeightsArg.w3 [[[1]]] [0]) [0] [0] 0 [0] 1 false false =
      Except.error msg) ∧
    (∃ msg, scan_map [1, 2] (-1) [[0]] [0] [[0]] [0]
      (WeightsArg.w3 [[[1]]] [0]) [0] [0] 2 [0] 1 false false =
      Except.error msg) ∧
    (∃ msg, scan_map [1, 2] 1 [[0]] [0] [[0], [0]] [0, 0]
      (WeightsArg.w3 [[[1]]] [0]) [0] [0] 2 [0] 1 false false =
      Except.error msg) ∧
    (∃ msg, scan_map [1, 2] 1 [[0]] [0] [[0]] [0]
      (WeightsArg.w3 [[[1]]] [0, 0]) [0] [0] 2 [0] 1 false false =
      Except.error msg) :=
  ⟨claim_C9_config_error [1, 2] 1 [[0]] [0] [[0]] [0]
      (WeightsArg.w3 [[[1]]] [0]) [0] [0] 0 [0] 1 false false
      (Or.inl (by decide)),
   claim_C9_config_error [1, 2] (-1) [[0]] [0] [[0]] [0]
      (WeightsArg.w3 [[[1]]] [0]) [0] [0] 2 [0] 1 false false
      (Or.inr (Or.inl (by decide))),
   claim_C9_config_error [1, 2] 1 [[0]] [0] [[0], [0]] [0, 0]
      (WeightsArg.w3 [[[1]]] [0]) [0] [0] 2 [0] 1 false false
      (Or.inr (Or.inr (Or.inl (by decide)))),
   claim_C9_config_error [1, 2] 1 [[0]] [0] [[0]] [0]
      (WeightsArg.w3 [[[1]]] [0, 0]) [0] [0] 2 [0] 1 false false
      (Or.inr (Or.inr (Or.inr (by
        show ([0, 0] : List Int).length ≠ ([0] : List Int).length
        decide))))⟩

/-- C10: evaluation of `scan_map_interval` with `weight_index = None` at the
Scenario A geometry (one component, interval length 3).  The all-ones
replacement array has the shape of the pixel batch, not of a per-component
weight batch, so numpy broadcasting multiplies every gathered map value by
every one of the 3 ones: the result is `[30, 60, 0]` — three times the
unit-weight projection `[10, 20, 0]` claimed. -/
theorem claim_C10_noweights_eval :
    scan_map_interval [10, 20, 30, 40] 1 4 [0, -1] [[0, 0, 0]] [0] [[0, 1, 5]]
        [0] WeightsArg.noweights [0] [2] 3 1 false false =
      Except.ok [[30, 60, 0]] ∧
    (Except.ok [[(30 : ℚ), 60, 0]] : Except String (List (List ℚ))) ≠
      Except.ok [[(10 : ℚ), 20, 0]] := by
  constructor
  · have hw1 : scan_map_inner_w1 [[[10], [20], [30], [40]]] 4 [0, -1] [0, 1, 5]
        [1, 1, 1] [0, 0, 0] 1 false false = Except.ok [30, 60, 0] := by
      norm_num [scan_map_inner_w1, broadcast_mul_2d_1d, scan_map_gathered,
        global_to_local, jaxGetD, jaxIndex, Except.bind, Except.pure,
        (by decide : Int.fdiv 0 4 = 0), (by decide : Int.fmod 0 4 = 0),
        (by decide : Int.fdiv 1 4 = 0), (by decide : Int.fmod 1 4 = 1),
        (by decide : Int.fdiv 5 4 = 1), (by decide : Int.fmod 5 4 = 1)]
    calc
      scan_map_interval [10, 20, 30, 40] 1 4 [0, -1] [[0, 0, 0]] [0]
          [[0, 1, 5]] [0] WeightsArg.noweights [0] [2] 3 1 false false =
          (scan_map_inner_w1 [[[10], [20], [30], [40]]] 4 [0, -1] [0, 1, 5]
            [1, 1, 1] [0, 0, 0] 1 false false).bind
            (fun r => Except.ok (intervals_set [[0, 0, 0]] [0] [0] [2] 3 [[r]])) := rfl
      _ = Except.ok (intervals_set [[0, 0, 0]] [0] [0] [2] 3 [[[30, 60, 0]]]) := by
            rw [hw1]; rfl
      _ = Except.ok [[30, 60, 0]] := rfl
  · norm_num

/-- C4: batching equivalence — on the 3-D weights path the guarantee holds:
for a detector whose intervals are in-bounds, ordered and disjoint,
processing all intervals as one padded batch (any common padding length
`maxLen` at least each interval's real length, in particular the
`compute_max_intervals_length` that `scan_map` uses) produces exactly the
same timestream as processing each interval individually, each padded only
to its own length.  On the `weight_index = None` fallback (and likewise on
2-D weights), however, the guarantee is false in the code: the all-ones
array has the pixel batch's shape, numpy broadcasting couples every sample
to the padded interval length, and the concrete input below gives
`[[10, 40, 60]]` one interval at a time but `[[20, 40, 60]]` as one padded
batch — the padding length leaks into a real sample's result. -/
theorem claim_C4_batching :
    (∀ (mapdata : List ℚ) (nmap npix_submap : Int) (global2local : List Int)
      (di0 pi0 wi0 : Int) (pixels : List (List Int))
      (w : List (List (List ℚ))) (maxLen : Nat) (data_scale : ℚ)
      (z s : Bool) (m3 : List (List (List ℚ))),
      reshape_submaps mapdata npix_submap nmap = Except.ok m3 →
      ∀ (starts lasts : List Int) (dd : List (List ℚ)),
      starts.length = lasts.length →
      (∀ v, v < starts.length → 0 ≤ starts.getD v 0 ∧
        starts.getD v 0 ≤ lasts.getD v 0 ∧
        lasts.getD v 0 < (rowLen dd (jaxIndex dd.length di0) : Int)) →
      (∀ u v, u < v → v < starts.length →
        lasts.getD u 0 < starts.getD v 0) →
      (∀ v, v < starts.length →
        (lasts.getD v 0 + 1 - starts.getD v 0).toNat ≤ maxLen) →
      scan_intervals_one_by_one mapdata nmap npix_submap global2local dd
        [di0] pixels [pi0] (WeightsArg.w3 w [wi0]) starts lasts data_scale
        z s =
      scan_map_interval mapdata nmap npix_submap global2local dd [di0]
        pixels [pi0] (WeightsArg.w3 w [wi0]) starts lasts maxLen data_scale
        z s) ∧
    scan_intervals_one_by_one [10, 20, 30, 40] 1 4 [0, -1] [[0, 0, 0]] [0]
      [[0, 1, 2]] [0] WeightsArg.noweights [0, 1] [0, 2] 1 false false =
      Except.ok [[10, 40, 60]] ∧
    scan_map_interval [10, 20, 30, 40] 1 4 [0, -1] [[0, 0, 0]] [0]
      [[0, 1, 2]] [0] WeightsArg.noweights [0, 1] [0, 2]
      (compute_max_intervals_length [0, 1] [0, 2]) 1 false false =
      Except.ok [[20, 40, 60]] ∧
    (Except.ok [[(10 : ℚ), 40, 60]] : Except String (List (List ℚ))) ≠
      Except.ok [[(20 : ℚ), 40, 60]] := by
  have hwA : scan_map_inner_w1 [[[10], [20], [30], [40]]] 4 [0, -1] [0]
      [1] [0] 1 false false = Except.ok [10] := by
    norm_num [scan_map_inner_w1, broadcast_mul_2d_1d, scan_map_gathered,
      global_to_local, jaxGetD, jaxIndex, Except.bind, Except.pure,
      (by decide : Int.fdiv 0 4 = 0), (by decide : Int.fmod 0 4 = 0)]
  have hwB : scan_map_inner_w1 [[[10], [20], [30], [40]]] 4 [0, -1] [1, 2]
      [1, 1] [0, 0] 1 false false = Except.ok [40, 60] := by
    norm_num [scan_map_inner_w1, broadcast_mul_2d_1d, scan_map_gathered,
      global_to_local, jaxGetD, jaxIndex, Except.bind, Except.pure,
      (by decide : Int.fdiv 1 4 = 0), (by decide : Int.fmod 1 4 = 1),
      (by decide : Int.fdiv 2 4 = 0), (by decide : Int.fmod 2 4 = 2),
      (by decide : Int.toNat 0 = 0), (by decide : Int.toNat 1 = 1),
      (by decide : Int.toNat 2 = 2)]
  have hwC : scan_map_inner_w1 [[[10], [20], [30], [40]]] 4 [0, -1] [0, 0]
      [1, 1] [0, 0] 1 false false = Except.ok [20, 20] := by
    norm_num [scan_map_inner_w1, broadcast_mul_2d_1d, scan_map_gathered,
      global_to_local, jaxGetD, jaxIndex, Except.bind, Except.pure,
      (by decide : Int.fdiv 0 4 = 0), (by decide : Int.fmod 0 4 = 0)]
  have h1 : scan_map_interval [10, 20, 30, 40] 1 4 [0, -1] [[0, 0, 0]] [0]
      [[0, 1, 2]] [0] WeightsArg.noweights [0] [0] 1 1 false false =
      Except.ok [[10, 0, 0]] := by
    calc
      scan_map_interval [10, 20, 30, 40] 1 4 [0, -1] [[0, 0, 0]] [0]
          [[0, 1, 2]] [0] WeightsArg.noweights [0] [0] 1 1 false false =
          (scan_map_inner_w1 [[[10], [20], [30], [40]]] 4 [0, -1] [0] [1]
            [0] 1 false false).bind
            (fun r => Except.ok (intervals_set [[0, 0, 0]] [0] [0] [0] 1
              [[r]])) := rfl
      _ = Except.ok (intervals_set [[0, 0, 0]] [0] [0] [0] 1 [[[10]]]) := by
            rw [hwA]; rfl
      _ = Except.ok [[10, 0, 0]] := rfl
  have h2 : scan_map_interval [10, 20, 30, 40] 1 4 [0, -1] [[10, 0, 0]] [0]
      [[0, 1, 2]] [0] WeightsArg.noweights [1] [2] 2 1 false false =
      Except.ok [[10, 40, 60]] := by
    calc
      scan_map_interval [10, 20, 30, 40] 1 4 [0, -1] [[10, 0, 0]] [0]
          [[0, 1, 2]] [0] WeightsArg.noweights [1] [2] 2 1 false false =
          (scan_map_inner_w1 [[[10], [20], [30], [40]]] 4 [0, -1] [1, 2]
            [1, 1] [0, 0] 1 false false).bind
            (fun r => Except.ok (intervals_set [[10, 0, 0]] [0] [1] [2] 2
              [[r]])) := rfl
      _ = Except.ok (intervals_set [[10, 0, 0]] [0] [1] [2] 2
            [[[40, 60]]]) := by rw [hwB]; rfl
      _ = Except.ok [[10, 40, 60]] := rfl
  have h3 : scan_map_interval [10, 20, 30, 40] 1 4 [0, -1] [[0, 0, 0]] [0]
      [[0, 1, 2]] [0] WeightsArg.noweights [0, 1] [0, 2] 2 1 false false =
      Except.ok [[20, 40, 60]] := by
    calc
      scan_map_interval [10, 20, 30, 40] 1 4 [0, -1] [[0, 0, 0]] [0]
          [[0, 1, 2]] [0] WeightsArg.noweights [0, 1] [0, 2] 2 1 false
          false =
          (scan_map_inner_w1 [[[10], [20], [30], [40]]] 4 [0, -1] [0, 0]
            [1, 1] [0, 0] 1 false false).bind
            (fun r1 => (scan_map_inner_w1 [[[10], [20], [30], [40]]] 4
              [0, -1] [1, 2] [1, 1] [0, 0] 1 false false).bind
              (fun r2 => Except.ok (intervals_set [[0, 0, 0]] [0] [0, 1]
                [0, 2] 2 [[r1, r2]]))) := rfl
      _ = Except.ok (intervals_set [[0, 0, 0]] [0] [0, 1] [0, 2] 2
            [[[20, 20], [40, 60]]]) := by rw [hwC, hwB]; rfl
      _ = Except.ok [[20, 40, 60]] := rfl
  refine ⟨?_, ?_, ?_, ?_⟩
  · intro mapdata nmap npix_submap global2local di0 pi0 wi0 pixels w maxLen
      data_scale z s m3 hre starts lasts dd hlen hwf hsorted hmax
    exact one_by_one_eq_batch mapdata nmap npix_submap global2local di0 pi0
      wi0 pixels w maxLen data_scale z s m3 hre starts lasts dd hlen hwf
      hsorted hmax
  · calc
      scan_intervals_one_by_one [10, 20, 30, 40] 1 4 [0, -1] [[0, 0, 0]]
          [0] [[0, 1, 2]] [0] WeightsArg.noweights [0, 1] [0, 2] 1 false
          false =
          (scan_map_interval [10, 20, 30, 40] 1 4 [0, -1] [[0, 0, 0]] [0]
            [[0, 1, 2]] [0] WeightsArg.noweights [0] [0] 1 1 false
            false) >>= (fun dd2 =>
              scan_intervals_one_by_one [10, 20, 30, 40] 1 4 [0, -1] dd2
                [0] [[0, 1, 2]] [0] WeightsArg.noweights [1] [2] 1 false
                false) := rfl
      _ = scan_intervals_one_by_one [10, 20, 30, 40] 1 4 [0, -1]
            [[10, 0, 0]] [0] [[0, 1, 2]] [0] WeightsArg.noweights [1] [2]
            1 false false := by rw [h1]; rfl
      _ = (scan_map_interval [10, 20, 30, 40] 1 4 [0, -1] [[10, 0, 0]] [0]
            [[0, 1, 2]] [0] WeightsArg.noweights [1] [2] 2 1 false
            false) >>= (fun dd3 =>
              scan_intervals_one_by_one [10, 20, 30, 40] 1 4 [0, -1] dd3
                [0] [[0, 1, 2]] [0] WeightsArg.noweights ([] : List Int)
                ([] : List Int) 1 false false) := rfl
      _ = Except.ok [[10, 40, 60]] := by rw [h2]; rfl
  · exact h3
  · norm_num

/-- Witness for C4's universally quantified part: two intervals `[0,1]` and
`[3,4]` over a five-sample timestream, batch padding length 2, on the 3-D
weights path. -/
theorem claim_C4_batching_witness :
    scan_intervals_one_by_one [10, 20, 30, 40] 1 4 [0, -1]
      [[0, 0, 0, 0, 0]] [0] [[0, 1, 5, 2, 3]] [0]
      (WeightsArg.w3 [[[1], [1], [1], [1], [1]]] [0]) [0, 3] [1, 4] 1
      false false =
    scan_map_interval [10, 20, 30, 40] 1 4 [0, -1] [[0, 0, 0, 0, 0]] [0]
      [[0, 1, 5, 2, 3]] [0]
      (WeightsArg.w3 [[[1], [1], [1], [1], [1]]] [0]) [0, 3] [1, 4] 2 1
      false false :=
  claim_C4_batching.1 [10, 20, 30, 40] 1 4 [0, -1] 0 0 0 [[0, 1, 5, 2, 3]]
    [[[1], [1], [1], [1], [1]]] 2 1 false false [[[10], [20], [30], [40]]]
    rfl [0, 3] [1, 4] [[0, 0, 0, 0, 0]] rfl (by decide)
    (by
      intro u v huv hv
      have hv2 : v < 2 := hv
      have hv1 : v = 1 := by omega
      have hu0 : u = 0 := by omega
      subst hv1
      subst hu0
      decide)
    (by decide)

end ToastScanMap
